import Mathlib

/-!
Verification of the flow rule manager (core/flow/rule_manager.go).

The development shallowly embeds the rule manager: the generator registry,
the rule validator, the map builder, the reconciler and the query API.
Pure functions become Lean functions; the package-level mutable state
(registry, effective controller map) becomes an explicit state record that
every operation threads. Go maps keyed by strings are embedded as
association lists with unique keys (the key-uniqueness a Go map provides
by construction appears as a hypothesis where a theorem needs it). Go
pointers that matter observably are embedded explicitly: a traffic
shaping controller carries an allocation identity, and rule pointers of
the query API are treated in a small heap model where copy isolation is
proved. Panics of registered factories are embedded as an error outcome
that the builder propagates, matching the deferred recover of the
reconciler. float64 thresholds are embedded as rationals: the manager
only compares them, never computes with them.
-/

/-! ### Enumerations

Modelled from the spec: the enum constants live in files of the
repository that are not under src (rule.go). The spec lists the members
in declaration order; Go iota numbering gives consecutive values from 0,
and the manager compares them as signed integers. -/

/-- Modelled from the spec: MetricType enum, first member. -/
def Concurrency : Int := 0

/-- Modelled from the spec: MetricType enum, second member. -/
def QPS : Int := 1

/-- Modelled from the spec: RelationStrategy enum, first member. -/
def CurrentResource : Int := 0

/-- Modelled from the spec: RelationStrategy enum, second member. -/
def AssociatedResource : Int := 1

/-- Modelled from the spec: TokenCalculateStrategy enum, first member. -/
def Direct : Int := 0

/-- Modelled from the spec: TokenCalculateStrategy enum, second member. -/
def WarmUp : Int := 1

/-- Modelled from the spec: ControlBehavior enum, first member. -/
def Reject : Int := 0

/-- Modelled from the spec: ControlBehavior enum, second member. -/
def Throttling : Int := 1

/-! ### Rule -/

/-- Modelled from the spec: the Rule value object of rule.go, which is not
under src. Field defaults are the Go zero values, so a literal that sets
only some fields reads like a Go struct literal. The float64 threshold is
embedded as a rational. -/
structure Rule where
  Resource : String := ""
  MetricType : Int := 0
  RelationStrategy : Int := 0
  RefResource : String := ""
  Count : Rat := 0
  TokenCalculateStrategy : Int := 0
  ControlBehavior : Int := 0
  WarmUpPeriodSec : Nat := 0
  WarmUpColdFactor : Nat := 0
  MaxQueueingTimeMs : Nat := 0
  deriving DecidableEq, Repr

/-- Modelled from the spec: two rules are equivalent iff all semantically
meaningful fields are equal (the equalsTo method of rule.go is not under
src). Every field of the embedded Rule is semantically meaningful. -/
def Rule.equalsTo (r newRule : Rule) : Bool :=
  r.Resource == newRule.Resource &&
  r.MetricType == newRule.MetricType &&
  r.RelationStrategy == newRule.RelationStrategy &&
  r.RefResource == newRule.RefResource &&
  r.Count == newRule.Count &&
  r.TokenCalculateStrategy == newRule.TokenCalculateStrategy &&
  r.ControlBehavior == newRule.ControlBehavior &&
  r.WarmUpPeriodSec == newRule.WarmUpPeriodSec &&
  r.WarmUpColdFactor == newRule.WarmUpColdFactor &&
  r.MaxQueueingTimeMs == newRule.MaxQueueingTimeMs

/-- equalsTo lifted to nullable rule pointers. Modelled from the spec:
equivalence relates rule values, so a missing rule is equivalent to
nothing. -/
def ruleOptEqualsTo : Option Rule → Option Rule → Bool
  | some r1, some r2 => r1.equalsTo r2
  | _, _ => false

/-! ### Controllers, generators and the registry -/

/-- Modelled from the spec: the TrafficShapingController of
traffic_shaping.go is opaque to the manager apart from the rule it stores
for introspection and equivalence checks. The id field embeds the object
identity of the Go allocation; the rule field embeds the possibly nil
rule pointer the controller exposes. -/
structure TrafficShapingController where
  id : Nat
  rule : Option Rule
  deriving DecidableEq, Repr

/-- Outcome of invoking a registered factory on a rule: a controller, a
nil controller, or a panic carrying a message. -/
inductive GenResult where
  | ok (tsc : TrafficShapingController)
  | nilController
  | panicked (msg : String)
  deriving DecidableEq, Repr

/-- TrafficControllerGenFunc: a factory from a rule to a controller. The
first argument is the allocation counter current at the call, with which
the embedding models the identity of objects the factory allocates. -/
abbrev TrafficControllerGenFunc := Nat → Rule → GenResult

/-- trafficControllerGenKey of rule_manager.go. -/
structure GenKey where
  tokenCalculateStrategy : Int
  controlBehavior : Int
  deriving DecidableEq, Repr

/-- tcGenFuncMap embedded as a lookup function (Go map keyed by a
value-comparable pair). -/
abbrev Registry := GenKey → Option TrafficControllerGenFunc

/-- TrafficControllerMap of rule_manager.go, embedded as an association
list with unique keys. -/
abbrev TrafficControllerMap := List (String × List TrafficShapingController)

/-- Modelled from the spec: NewTrafficShapingController of
traffic_shaping.go allocates a fresh controller that stores the
originating rule; the calculator and checker it also stores are opaque
external collaborators and are not embedded. -/
def newTrafficShapingController (ctr : Nat) (rule : Rule) : TrafficShapingController :=
  ⟨ctr, some rule⟩

/-- Built-in factory for Direct and Reject, as installed by init. -/
def directRejectGen : TrafficControllerGenFunc :=
  fun ctr rule => .ok (newTrafficShapingController ctr rule)

/-- Built-in factory for Direct and Throttling, as installed by init. -/
def directThrottlingGen : TrafficControllerGenFunc :=
  fun ctr rule => .ok (newTrafficShapingController ctr rule)

/-- Built-in factory for WarmUp and Reject, as installed by init. -/
def warmUpRejectGen : TrafficControllerGenFunc :=
  fun ctr rule => .ok (newTrafficShapingController ctr rule)

/-- Built-in factory for WarmUp and Throttling, as installed by init. -/
def warmUpThrottlingGen : TrafficControllerGenFunc :=
  fun ctr rule => .ok (newTrafficShapingController ctr rule)

/-- The registry as seeded by init of rule_manager.go: the four built-in
pairs. -/
def tcGenFuncMapInit : Registry := fun k =>
  if k = ⟨Direct, Reject⟩ then some directRejectGen
  else if k = ⟨Direct, Throttling⟩ then some directThrottlingGen
  else if k = ⟨WarmUp, Reject⟩ then some warmUpRejectGen
  else if k = ⟨WarmUp, Throttling⟩ then some warmUpThrottlingGen
  else none

/-! ### Validator -/

/-- IsValidRule of rule_manager.go. The input is the nullable rule
pointer; the output is the error (its message string), or none when the
rule is valid. -/
def IsValidRule : Option Rule → Option String
  | none => some "nil Rule"
  | some rule =>
    if rule.Resource = "" then some "empty resource name"
    else if rule.Count < 0 then some "negative threshold"
    else if rule.MetricType < 0 then some "invalid metric type"
    else if rule.RelationStrategy < 0 then some "invalid relation strategy"
    else if rule.TokenCalculateStrategy < 0 ∨ rule.ControlBehavior < 0 then
      some "invalid control strategy"
    else if rule.RelationStrategy = AssociatedResource ∧ rule.RefResource = "" then
      some "Bad flow rule: invalid control behavior"
    else if rule.TokenCalculateStrategy = WarmUp then
      if rule.WarmUpPeriodSec ≤ 0 then some "invalid warmUpPeriodSec"
      else if rule.WarmUpColdFactor = 1 then some "WarmUpColdFactor must be great than 1"
      else none
    else none

/-! ### Map builder -/

/-- Lookup of a resource in the controller map (Go map indexing with the
comma-ok form). -/
def mapLookup (m : TrafficControllerMap) (res : String) : Option (List TrafficShapingController) :=
  match m.find? (fun p => p.1 == res) with
  | some p => some p.2
  | none => none

/-- Rewrite of one entry of the association list: the entry of the given
resource receives the appended controller, every other entry stays. -/
def updateEntry (res : String) (tsc : TrafficShapingController)
    (p : String × List TrafficShapingController) : String × List TrafficShapingController :=
  if p.1 == res then (p.1, p.2 ++ [tsc]) else p

/-- Store of a controller under a resource: append to the existing list,
or create a one-element list for a fresh key, exactly as buildFlowMap
assigns m[rule.Resource]. -/
def mapInsertAppend (m : TrafficControllerMap) (res : String)
    (tsc : TrafficShapingController) : TrafficControllerMap :=
  if (m.find? (fun p => p.1 == res)).isSome then
    m.map (updateEntry res tsc)
  else m ++ [(res, [tsc])]

/-- The registry key of a rule. -/
def keyOf (rule : Rule) : GenKey :=
  ⟨rule.TokenCalculateStrategy, rule.ControlBehavior⟩

/-- Accumulated state of the buildFlowMap loop: the map built so far, the
failed rules collected so far, and the allocation counter. -/
structure BuildOutput where
  m : TrafficControllerMap
  failedRules : List (Option Rule)
  ctr : Nat
  deriving DecidableEq, Repr

/-- The dedup scan of buildFlowMap: when the resource already has
controllers, the rule is a duplicate iff it is equivalent to the rule of
one of them (the Go code sets the loop variable to nil and skips; when
the resource is absent the scan does not run). -/
def dupB (m : TrafficControllerMap) (rule : Rule) : Bool :=
  match mapLookup m rule.Resource with
  | some rulesOfRes => rulesOfRes.any (fun tc => ruleOptEqualsTo (some rule) tc.rule)
  | none => false

/-- One iteration of the buildFlowMap loop of rule_manager.go: skip nil,
validate, deduplicate against controllers already built for the resource,
resolve the generator, invoke it, and store the controller. An error
outcome embeds a factory panic unwinding out of the loop. -/
def buildStep (reg : Registry) (acc : BuildOutput) (rulePtr : Option Rule) :
    Except String BuildOutput :=
  match rulePtr with
  | none => .ok acc
  | some rule =>
    if (IsValidRule (some rule)).isSome then
      .ok { acc with failedRules := acc.failedRules ++ [some rule] }
    else if dupB acc.m rule then .ok acc
    else
      match reg (keyOf rule) with
      | none => .ok { acc with failedRules := acc.failedRules ++ [some rule] }
      | some generator =>
        match generator acc.ctr rule with
        | .panicked msg => .error msg
        | .nilController =>
          .ok { acc with failedRules := acc.failedRules ++ [some rule], ctr := acc.ctr + 1 }
        | .ok tsc =>
          .ok { acc with m := mapInsertAppend acc.m rule.Resource tsc, ctr := acc.ctr + 1 }

/-- The buildFlowMap loop over the input rules. -/
def buildFlowMapAux (reg : Registry) : List (Option Rule) → BuildOutput → Except String BuildOutput
  | [], acc => .ok acc
  | rulePtr :: rest, acc =>
    match buildStep reg acc rulePtr with
    | .error msg => .error msg
    | .ok acc2 => buildFlowMapAux reg rest acc2

/-- buildFlowMap of rule_manager.go: rule list to per-resource controller
lists plus the failed rules, starting from an empty map. -/
def buildFlowMap (reg : Registry) (rules : List (Option Rule)) (ctr : Nat) :
    Except String BuildOutput :=
  buildFlowMapAux reg rules ⟨[], [], ctr⟩

/-! ### Reconciler -/

/-- The eqCount computation of onRuleUpdate for one resource: the number
of current controllers whose rule has an equivalent among the candidate
controllers (the inner loop breaks at the first match, so each current
controller contributes at most once). -/
def matchCount (tcs mTcs : List TrafficShapingController) : Nat :=
  (tcs.filter (fun tc => mTcs.any (fun mTc => ruleOptEqualsTo tc.rule mTc.rule))).length

/-- The body of the change-detection loop of onRuleUpdate for one current
resource: absence in the candidate map, differing list lengths, or a
current controller without an equivalent candidate mark a change. -/
def resChangedB (m : TrafficControllerMap) (p : String × List TrafficShapingController) : Bool :=
  match mapLookup m p.1 with
  | none => true
  | some mTcs =>
    if p.2.length ≠ mTcs.length then true
    else matchCount p.2 mTcs < p.2.length

/-- The change-detection of onRuleUpdate: resource counts, then per
current resource the presence in the candidate map, the list lengths, and
the eqCount test. -/
def computeChanged (tcMap m : TrafficControllerMap) : Bool :=
  if tcMap.length ≠ m.length then true
  else tcMap.any (resChangedB m)

/-- The triple returned by onRuleUpdate and LoadRules. -/
structure LoadResult where
  changed : Bool
  err : Option String
  failedRules : List (Option Rule)
  deriving DecidableEq, Repr

/-- The package-level mutable state of rule_manager.go: the generator
registry and the effective controller map, plus the allocation counter of
the embedding. -/
structure FlowState where
  tcGenFuncMap : Registry
  tcMap : TrafficControllerMap
  ctr : Nat

/-- onRuleUpdate of rule_manager.go: build the candidate map, compute the
changed flag against the current map, and swap the map in. When the build
panics, the deferred recover turns the panic into the returned error, the
failed rules become the whole input list, and the map keeps its pre-call
value (the named return ret keeps its zero value false). -/
def onRuleUpdate (s : FlowState) (rules : List (Option Rule)) : LoadResult × FlowState :=
  match buildFlowMap s.tcGenFuncMap rules s.ctr with
  | .error msg =>
    ({ changed := false, err := some msg, failedRules := rules }, s)
  | .ok bo =>
    ({ changed := computeChanged s.tcMap bo.m, err := none, failedRules := bo.failedRules },
     { s with tcMap := bo.m, ctr := bo.ctr })

/-- LoadRules of rule_manager.go, a direct wrapper of onRuleUpdate. -/
def LoadRules (s : FlowState) (rules : List (Option Rule)) : LoadResult × FlowState :=
  onRuleUpdate s rules

/-- The initial state: the seeded registry and an empty effective map. -/
def initState : FlowState :=
  ⟨tcGenFuncMapInit, [], 0⟩

/-! ### Query API -/

/-- rulesFrom of rule_manager.go: collect the non-nil rule pointers of
all controllers (controller lists built by buildFlowMap hold no nil
controller, so only the nil check on the rule remains observable). -/
def rulesFrom (m : TrafficControllerMap) : List Rule :=
  m.foldl (fun acc p => acc ++ p.2.filterMap (fun tc => tc.rule)) []

/-- getRules of rule_manager.go (internal, shares the stored rules). -/
def getRules (s : FlowState) : List Rule :=
  rulesFrom s.tcMap

/-- getRulesOfResource of rule_manager.go (internal): the rule pointers
of one resource, without the nil filtering rulesFrom performs; an absent
resource yields the empty (nil) slice. -/
def getRulesOfResource (s : FlowState) (res : String) : List (Option Rule) :=
  match mapLookup s.tcMap res with
  | none => []
  | some resTcs => resTcs.map (fun tc => tc.rule)

/-- A Go slice of rule values, remembering whether it is the nil slice:
make produces a non-nil slice even when empty. -/
structure RuleSlice where
  isNil : Bool
  elems : List Rule
  deriving DecidableEq, Repr

/-- GetRules of rule_manager.go: a freshly made slice holding value
copies of the effective rules. -/
def GetRules (s : FlowState) : RuleSlice :=
  ⟨false, getRules s⟩

/-- GetRulesOfResource of rule_manager.go: a freshly made slice of value
copies of one resource. Dereferencing a nil rule pointer would panic, so
the result is none when a stored pointer is nil. -/
def GetRulesOfResource (s : FlowState) (res : String) : Option RuleSlice :=
  match (getRulesOfResource s res).mapM id with
  | none => none
  | some vals => some ⟨false, vals⟩

/-! ### Registry mutation -/

/-- SetTrafficShapingGenerator of rule_manager.go. The pair of the error
and the registry after the call. -/
def SetTrafficShapingGenerator (reg : Registry) (tokenCalculateStrategy controlBehavior : Int)
    (generator : Option TrafficControllerGenFunc) : Option String × Registry :=
  match generator with
  | none => (some "nil generator", reg)
  | some g =>
    if Direct ≤ tokenCalculateStrategy ∧ tokenCalculateStrategy ≤ WarmUp then
      (some "not allowed to replace the generator for default control strategy", reg)
    else if Reject ≤ controlBehavior ∧ controlBehavior ≤ Throttling then
      (some "not allowed to replace the generator for default control strategy", reg)
    else
      (none, fun k => if k = ⟨tokenCalculateStrategy, controlBehavior⟩ then some g else reg k)

/-- RemoveTrafficShapingGenerator of rule_manager.go. -/
def RemoveTrafficShapingGenerator (reg : Registry) (tokenCalculateStrategy controlBehavior : Int) :
    Option String × Registry :=
  if Direct ≤ tokenCalculateStrategy ∧ tokenCalculateStrategy ≤ WarmUp then
    (some "not allowed to replace the generator for default control strategy", reg)
  else if Reject ≤ controlBehavior ∧ controlBehavior ≤ Throttling then
    (some "not allowed to replace the generator for default control strategy", reg)
  else
    (none, fun k => if k = ⟨tokenCalculateStrategy, controlBehavior⟩ then none else reg k)

/-! ### Value view and registry well-formedness -/

/-- The rule stored by a controller (the observable part of a controller
apart from its identity). -/
def stripTc (tc : TrafficShapingController) : Option Rule := tc.rule

/-- The rule-value view of a controller map: identities erased, keys and
per-resource order kept. -/
def stripMap (m : TrafficControllerMap) : List (String × List (Option Rule)) :=
  m.map (fun p => (p.1, p.2.map stripTc))

/-- The key list of a controller map. -/
def keys (m : TrafficControllerMap) : List String := m.map Prod.fst

/-- A factory is rule faithful when a controller it returns stores the
originating rule, as the spec requires of the collaborator factories. -/
def RuleFaithful (gen : TrafficControllerGenFunc) : Prop :=
  ∀ ctr r tsc, gen ctr r = .ok tsc → tsc.rule = some r

/-- Two factory outcomes of the same kind: controller, nil controller, or
panic. -/
def sameOutcome : GenResult → GenResult → Prop
  | .ok _, .ok _ => True
  | .nilController, .nilController => True
  | .panicked _, .panicked _ => True
  | _, _ => False

/-- A factory is stable when the kind of its outcome on a rule does not
depend on the allocation counter: it embeds a Go factory that behaves as
a function of the rule. -/
def CtrStable (gen : TrafficControllerGenFunc) : Prop :=
  ∀ ctr1 ctr2 r, sameOutcome (gen ctr1 r) (gen ctr2 r)

/-- Every registered factory is rule faithful. -/
def RuleFaithfulRegistry (reg : Registry) : Prop :=
  ∀ k gen, reg k = some gen → RuleFaithful gen

/-- Every registered factory is rule faithful and stable: the factory
contract the spec states for collaborators. -/
def WellFormedRegistry (reg : Registry) : Prop :=
  ∀ k gen, reg k = some gen → RuleFaithful gen ∧ CtrStable gen

/-- Every registered factory allocates its controller freshly at the
current counter, as NewTrafficShapingController does. -/
def FreshAllocRegistry (reg : Registry) : Prop :=
  ∀ k gen, reg k = some gen → ∀ ctr r tsc, gen ctr r = .ok tsc → tsc.id = ctr

/-- Membership of a controller somewhere in a controller map. -/
def tcIn (tc : TrafficShapingController) (m : TrafficControllerMap) : Prop :=
  ∃ p ∈ m, tc ∈ p.2

/-- All controller identities of a map lie below a bound (the allocation
counter dominates every allocated object). -/
abbrev IdsBound (m : TrafficControllerMap) (n : Nat) : Prop :=
  ∀ p ∈ m, ∀ tc ∈ p.2, tc.id < n

/-! ### Concrete sample data used by witnesses -/

/-- A plain Direct and Reject rule. -/
def rA : Rule := { Resource := "abc" }

/-- A rule routed to a custom strategy pair. -/
def rP : Rule := { Resource := "pan", Count := 1, TokenCalculateStrategy := 10, ControlBehavior := 20 }

/-- A custom factory that panics on every invocation. -/
def panicGen : TrafficControllerGenFunc := fun _ _ => .panicked "custom factory panicked"

/-- The seeded registry extended with the panicking custom factory. -/
def panicReg : Registry := fun k =>
  if k = ⟨10, 20⟩ then some panicGen else tcGenFuncMapInit k

/-- A state holding one effective controller, with the panicking factory
registered. -/
def panicState : FlowState :=
  ⟨panicReg, [("abc", [⟨0, some rA⟩])], 1⟩

/-- The state after loading the plain rule into the initial state. -/
def s10 : FlowState := (LoadRules initState [some rA]).2

/-! ### C5 -/

/-- A rule that is valid for the code although its MetricType and
RelationStrategy are non-negative values outside the documented enums. -/
def unknownEnumRule : Rule :=
  { Resource := "test", Count := 10, MetricType := 2, RelationStrategy := 2 }

/-- A WarmUp rule missing its warm-up period, from the repository tests. -/
def warmUpBadRule : Rule :=
  { Resource := "test", Count := 5, MetricType := QPS, TokenCalculateStrategy := WarmUp }

/-- A fully valid WarmUp rule, from the repository tests. -/
def warmUpGoodRule : Rule :=
  { Resource := "test", Count := 10, MetricType := QPS, TokenCalculateStrategy := WarmUp,
    ControlBehavior := Throttling, WarmUpPeriodSec := 10, WarmUpColdFactor := 2 }

/-- A second plain rule on another resource. -/
def rB : Rule := { Resource := "abc2", ControlBehavior := 1 }

/-- Current map of the C2 witness: two resources, one controller each. -/
def c2old : TrafficControllerMap := [("a", [⟨0, some rA⟩]), ("b", [⟨1, some rB⟩])]

/-- Candidate map of the C2 witness: same resources and rule values, in
the other order and with fresh controller identities. -/
def c2new : TrafficControllerMap := [("b", [⟨5, some rB⟩]), ("a", [⟨7, some rA⟩])]

/-- All controllers of a map carry a rule. -/
def AllSomeMap (m : TrafficControllerMap) : Prop :=
  ∀ p ∈ m, ∀ tc ∈ p.2, (tc.rule).isSome

/-- Evidence that a stored controller originates from a valid rule of its
resource, installed by a registered factory that succeeded on it. -/
def StoredWitness (reg : Registry) (resKey : String) (tc : TrafficShapingController) : Prop :=
  ∃ r, tc.rule = some r ∧ r.Resource = resKey ∧ IsValidRule (some r) = none ∧
    ∃ gen, reg (keyOf r) = some gen ∧ ∃ ctr2 tsc2, gen ctr2 r = .ok tsc2

/-- Invariant the builder maintains on its map under rule-faithful
factories: unique keys, stored witnesses, and pairwise non-equivalent
rules within each resource. -/
def BuildInvariant (reg : Registry) (m : TrafficControllerMap) : Prop :=
  (keys m).Nodup ∧
  (∀ p ∈ m, ∀ tc ∈ p.2, StoredWitness reg p.1 tc) ∧
  (∀ p ∈ m, p.2.Pairwise (fun a b => ruleOptEqualsTo a.rule b.rule = false))

/-! ### C8 -/

/-- The three rejection causes the builder reports: invalid rule, missing
generator, or nil controller returned by the factory. -/
def RejectEvidence (reg : Registry) (r : Rule) : Prop :=
  (IsValidRule (some r)).isSome ∨ reg (keyOf r) = none ∨
    ∃ gen ctr2, reg (keyOf r) = some gen ∧ gen ctr2 r = .nilController

/-- Decidable-style rejection test of one rule against a registry whose
factories are stable: invalid, no generator, or nil controller. -/
def genMissingOrNil (reg : Registry) (r : Rule) : Bool :=
  match reg (keyOf r) with
  | none => true
  | some gen =>
    match gen 0 r with
    | .nilController => true
    | _ => false

/-- A rule the builder rejects (never builds a controller for), for a
stable registry. -/
def rejectsB (reg : Registry) (r : Rule) : Bool :=
  (IsValidRule (some r)).isSome || genMissingOrNil reg r

/-- An invalid rule of the C8 witness. -/
def rInvalid : Rule := { Resource := "", Count := 1 }

/-- A rule with an unregistered strategy pair. -/
def rU : Rule := { Resource := "u", TokenCalculateStrategy := 50, ControlBehavior := 60 }

/-! ### C7

A pointer-level view of the query API. GetRules and GetRulesOfResource of
rule_manager.go copy the pointed-to rule values into a freshly made
slice. The heap model makes the Go memory explicit: rule objects live at
addresses, the effective map stores addresses, and the copy loop of
GetRules allocates fresh cells and copies the pointed-to values into
them, so that mutation of the returned cells is expressible as a heap
write. -/

/-- Rule objects addressed by allocation index. -/
abbrev Heap := Nat → Rule

/-- A write through a rule pointer. -/
def heapWrite (h : Heap) (a : Nat) (v : Rule) : Heap :=
  fun x => if x = a then v else h x

/-- The rule addresses stored by an address-level controller map, in
map-iteration order (rulesFrom at the pointer level). -/
def addrsFrom (m : List (String × List Nat)) : List Nat :=
  m.foldl (fun acc p => acc ++ p.2) []

/-- The copy loop of GetRules at the heap level: for each source rule
pointer, allocate a fresh cell at the allocation counter, copy the
pointed-to value into it, and append its address to the result slice. -/
def GetRulesHeap (h : Heap) (srcAddrs : List Nat) (next : Nat) : List Nat × Heap × Nat :=
  srcAddrs.foldl
    (fun st a => (st.1 ++ [st.2.2], heapWrite st.2.1 st.2.2 (st.2.1 a), st.2.2 + 1))
    ([], h, next)

/-- Address-level map of the C7 witness: two resources, three stored
rule pointers. -/
def m0 : List (String × List Nat) := [("a", [0]), ("b", [1, 2])]

/-- Concrete heap of the C7 witness. -/
def heap0 : Heap := fun n => if n = 0 then rA else if n = 1 then rB else rP

/-! ### Basic lemmas on equivalence -/

theorem equalsTo_iff (r1 r2 : Rule) : r1.equalsTo r2 = true ↔ r1 = r2 := by
  cases r1
  cases r2
  simp [Rule.equalsTo, Rule.mk.injEq]
  tauto

theorem equalsTo_self (r : Rule) : r.equalsTo r = true :=
  (equalsTo_iff r r).2 rfl

theorem ruleOptEqualsTo_iff (o1 o2 : Option Rule) :
    ruleOptEqualsTo o1 o2 = true ↔ ∃ r, o1 = some r ∧ o2 = some r := by
  cases o1 <;> cases o2 <;> simp [ruleOptEqualsTo, equalsTo_iff]
  exact eq_comm

theorem ruleOptEqualsTo_same (r : Rule) : ruleOptEqualsTo (some r) (some r) = true :=
  (ruleOptEqualsTo_iff _ _).2 ⟨r, rfl, rfl⟩

theorem ruleOptEqualsTo_comm (o1 o2 : Option Rule) :
    ruleOptEqualsTo o1 o2 = ruleOptEqualsTo o2 o1 := by
  by_cases h : ruleOptEqualsTo o1 o2 = true
  · obtain ⟨r, h1, h2⟩ := (ruleOptEqualsTo_iff _ _).1 h
    rw [h, h1, h2, ruleOptEqualsTo_same]
  · by_cases h2 : ruleOptEqualsTo o2 o1 = true
    · obtain ⟨r, ha, hb⟩ := (ruleOptEqualsTo_iff _ _).1 h2
      exact absurd ((ruleOptEqualsTo_iff _ _).2 ⟨r, hb, ha⟩) h
    · rw [Bool.not_eq_true] at h h2
      rw [h, h2]

/-! ### Basic lemmas on the map representation -/

theorem mapLookup_nil (res : String) : mapLookup [] res = none := rfl

theorem mapLookup_cons (k : String) (l : List TrafficShapingController)
    (m : TrafficControllerMap) (res : String) :
    mapLookup ((k, l) :: m) res = if k = res then some l else mapLookup m res := by
  by_cases h : k = res
  · simp [mapLookup, List.find?_cons, h]
  · simp only [mapLookup, List.find?_cons]
    have : ((k, l).1 == res) = false := by simpa using h
    simp [this, h]

theorem mapInsertAppend_nil (res : String) (tsc : TrafficShapingController) :
    mapInsertAppend [] res tsc = [(res, [tsc])] := rfl

theorem updateEntry_hit (k : String) (l : List TrafficShapingController)
    (tsc : TrafficShapingController) :
    updateEntry k tsc (k, l) = (k, l ++ [tsc]) := by
  simp [updateEntry]

theorem updateEntry_miss (k : String) (l : List TrafficShapingController)
    (res : String) (tsc : TrafficShapingController) (h : k ≠ res) :
    updateEntry res tsc (k, l) = (k, l) := by
  simp [updateEntry, h]

theorem mapInsertAppend_cons_ne (k : String) (l : List TrafficShapingController)
    (m : TrafficControllerMap) (res : String) (tsc : TrafficShapingController) (h : k ≠ res) :
    mapInsertAppend ((k, l) :: m) res tsc = (k, l) :: mapInsertAppend m res tsc := by
  unfold mapInsertAppend
  rw [List.find?_cons_of_neg _ (by simpa using h)]
  by_cases h2 : (List.find? (fun p => p.1 == res) m).isSome
  · rw [if_pos h2, if_pos h2, List.map_cons, updateEntry_miss _ _ _ _ h]
  · rw [if_neg h2, if_neg h2, List.cons_append]

theorem mapInsertAppend_cons_eq (k : String) (l : List TrafficShapingController)
    (m : TrafficControllerMap) (tsc : TrafficShapingController) :
    mapInsertAppend ((k, l) :: m) k tsc =
      (k, l ++ [tsc]) :: m.map (updateEntry k tsc) := by
  unfold mapInsertAppend
  rw [List.find?_cons_of_pos _ (by simp)]
  rw [if_pos (by rfl), List.map_cons, updateEntry_hit]

theorem mapLookup_map_update (m : TrafficControllerMap) (res res2 : String)
    (tsc : TrafficShapingController) (h : res2 ≠ res) :
    mapLookup (m.map (updateEntry res tsc)) res2 = mapLookup m res2 := by
  induction m with
  | nil => rfl
  | cons q m ih =>
    obtain ⟨k, l⟩ := q
    by_cases hk : k = res
    · subst hk
      rw [List.map_cons, updateEntry_hit, mapLookup_cons, mapLookup_cons, ih]
      have hne : ¬ k = res2 := fun e => h e.symm
      rw [if_neg hne, if_neg hne]
    · rw [List.map_cons, updateEntry_miss _ _ _ _ hk, mapLookup_cons, mapLookup_cons, ih]

theorem mapLookup_insert_self (m : TrafficControllerMap) (res : String)
    (tsc : TrafficShapingController) :
    mapLookup (mapInsertAppend m res tsc) res = some ((mapLookup m res).getD [] ++ [tsc]) := by
  induction m with
  | nil => simp [mapInsertAppend_nil, mapLookup_cons, mapLookup_nil]
  | cons q m ih =>
    obtain ⟨k, l⟩ := q
    by_cases hk : k = res
    · subst hk
      rw [mapInsertAppend_cons_eq, mapLookup_cons, mapLookup_cons]
      simp
    · rw [mapInsertAppend_cons_ne _ _ _ _ _ hk, mapLookup_cons, mapLookup_cons, ih]
      simp [hk]

theorem mapLookup_insert_other (m : TrafficControllerMap) (res res2 : String)
    (tsc : TrafficShapingController) (h : res2 ≠ res) :
    mapLookup (mapInsertAppend m res tsc) res2 = mapLookup m res2 := by
  induction m with
  | nil =>
    rw [mapInsertAppend_nil, mapLookup_cons, mapLookup_nil,
      if_neg (fun e : res = res2 => h e.symm)]
  | cons q m ih =>
    obtain ⟨k, l⟩ := q
    by_cases hk : k = res
    · subst hk
      rw [mapInsertAppend_cons_eq, mapLookup_cons, mapLookup_cons,
        mapLookup_map_update _ _ _ _ h]
      have hne : ¬ k = res2 := fun e => h e.symm
      rw [if_neg hne, if_neg hne]
    · rw [mapInsertAppend_cons_ne _ _ _ _ _ hk, mapLookup_cons, mapLookup_cons, ih]

theorem mapLookup_of_mem_nodup (m : TrafficControllerMap) (p : String × List TrafficShapingController)
    (hm : p ∈ m) (hnd : (keys m).Nodup) : mapLookup m p.1 = some p.2 := by
  induction m with
  | nil => cases hm
  | cons q m ih =>
    obtain ⟨k, l⟩ := q
    rw [keys, List.map_cons, List.nodup_cons] at hnd
    rcases List.mem_cons.1 hm with rfl | hm2
    · rw [mapLookup_cons]; simp
    · rw [mapLookup_cons]
      by_cases hk : k = p.1
      · exfalso
        apply hnd.1
        rw [hk]
        exact List.mem_map.2 ⟨p, hm2, rfl⟩
      · rw [if_neg hk]; exact ih hm2 hnd.2

theorem mapLookup_isSome_iff_mem (m : TrafficControllerMap) (res : String) :
    (mapLookup m res).isSome ↔ res ∈ keys m := by
  induction m with
  | nil => simp [mapLookup_nil, keys]
  | cons q m ih =>
    obtain ⟨k, l⟩ := q
    rw [mapLookup_cons, keys, List.map_cons]
    by_cases hk : k = res
    · simp [hk]
    · simp only [if_neg hk]
      rw [List.mem_cons]
      constructor
      · intro h; exact Or.inr ((ih).1 h)
      · intro h
        rcases h with h | h
        · exact absurd h.symm hk
        · exact ih.2 h

/-! ### C1 -/

/-- C1: when any step of the reconciliation panics (the build of the
candidate map propagates a panic, for example from a registered factory),
LoadRules returns a non-nil error, the returned failed rules are the
whole original input list, and the effective map keeps its pre-call
value, so a subsequent GetRules returns the pre-call rule set. -/
theorem loadRules_panic_atomic (s : FlowState) (rules : List (Option Rule)) (msg : String)
    (hp : buildFlowMap s.tcGenFuncMap rules s.ctr = Except.error msg) :
    (LoadRules s rules).1.err = some msg ∧
    (LoadRules s rules).1.err ≠ none ∧
    (LoadRules s rules).1.failedRules = rules ∧
    (LoadRules s rules).2.tcMap = s.tcMap ∧
    GetRules (LoadRules s rules).2 = GetRules s := by
  simp [LoadRules, onRuleUpdate, hp]

/-- C1 witness: a concrete panicking factory, with a concrete pre-call
effective map that survives the failed reload. -/
theorem loadRules_panic_atomic_witness :
    (LoadRules panicState [some rP, some rA]).1.err = some "custom factory panicked" ∧
    (LoadRules panicState [some rP, some rA]).1.failedRules = [some rP, some rA] ∧
    (LoadRules panicState [some rP, some rA]).2.tcMap = [("abc", [⟨0, some rA⟩])] ∧
    GetRules (LoadRules panicState [some rP, some rA]).2 = GetRules panicState := by
  have h := loadRules_panic_atomic panicState [some rP, some rA] "custom factory panicked" (by rfl)
  exact ⟨h.1, h.2.2.1, h.2.2.2.1.trans rfl, h.2.2.2.2⟩

/-! ### C10 -/

/-- C10: GetRulesOfResource of a resource absent from the effective map
returns the empty, non-nil rule slice (no error), and GetRules on an
empty effective map likewise returns the empty, non-nil slice. -/
theorem getRules_absent_empty (s : FlowState) (res : String)
    (habsent : mapLookup s.tcMap res = none) :
    GetRulesOfResource s res = some ⟨false, []⟩ ∧
    (s.tcMap = [] → GetRules s = ⟨false, []⟩) := by
  constructor
  · unfold GetRulesOfResource getRulesOfResource
    rw [habsent]
    rfl
  · intro h
    unfold GetRules getRules rulesFrom
    rw [h]
    rfl

/-- C10 witness: the loaded state has no resource named zzz, and the
initial state has an empty effective map. -/
theorem getRules_absent_empty_witness :
    GetRulesOfResource s10 "zzz" = some ⟨false, []⟩ ∧
    GetRules initState = ⟨false, []⟩ :=
  ⟨(getRules_absent_empty s10 "zzz" (by rfl)).1,
   (getRules_absent_empty initState "zzz" (by rfl)).2 rfl⟩

/-! ### C6 -/

/-- C6: SetTrafficShapingGenerator rejects a nil generator; both Set and
Remove reject any strategy in the built-in range or, independently,
any behavior in the built-in range, even when the other axis is custom;
every error path leaves the registry unchanged; otherwise Set inserts or
overwrites the entry and Remove removes it, removal of an absent entry
being a no-op success. -/
theorem generator_registry_protection (reg : Registry) (tcs cb : Int) :
    (SetTrafficShapingGenerator reg tcs cb none = (some "nil generator", reg)) ∧
    (∀ g, ((Direct ≤ tcs ∧ tcs ≤ WarmUp) ∨ (Reject ≤ cb ∧ cb ≤ Throttling)) →
      SetTrafficShapingGenerator reg tcs cb (some g) =
        (some "not allowed to replace the generator for default control strategy", reg) ∧
      RemoveTrafficShapingGenerator reg tcs cb =
        (some "not allowed to replace the generator for default control strategy", reg)) ∧
    (∀ g, ¬(Direct ≤ tcs ∧ tcs ≤ WarmUp) → ¬(Reject ≤ cb ∧ cb ≤ Throttling) →
      (SetTrafficShapingGenerator reg tcs cb (some g)).1 = none ∧
      (SetTrafficShapingGenerator reg tcs cb (some g)).2 ⟨tcs, cb⟩ = some g ∧
      (∀ k, k ≠ (⟨tcs, cb⟩ : GenKey) → (SetTrafficShapingGenerator reg tcs cb (some g)).2 k = reg k)) ∧
    (¬(Direct ≤ tcs ∧ tcs ≤ WarmUp) → ¬(Reject ≤ cb ∧ cb ≤ Throttling) →
      (RemoveTrafficShapingGenerator reg tcs cb).1 = none ∧
      (RemoveTrafficShapingGenerator reg tcs cb).2 ⟨tcs, cb⟩ = none ∧
      (∀ k, k ≠ (⟨tcs, cb⟩ : GenKey) → (RemoveTrafficShapingGenerator reg tcs cb).2 k = reg k) ∧
      (reg ⟨tcs, cb⟩ = none → (RemoveTrafficShapingGenerator reg tcs cb).2 = reg)) := by
  refine ⟨rfl, ?_, ?_, ?_⟩
  · intro g hor
    by_cases h1 : Direct ≤ tcs ∧ tcs ≤ WarmUp
    · constructor <;> simp [SetTrafficShapingGenerator, RemoveTrafficShapingGenerator, h1]
    · have h2 : Reject ≤ cb ∧ cb ≤ Throttling := hor.resolve_left h1
      constructor <;> simp [SetTrafficShapingGenerator, RemoveTrafficShapingGenerator, h1, h2]
  · intro g h1 h2
    refine ⟨?_, ?_, ?_⟩
    · simp [SetTrafficShapingGenerator, h1, h2]
    · simp [SetTrafficShapingGenerator, h1, h2]
    · intro k hk
      simp [SetTrafficShapingGenerator, h1, h2, hk]
  · intro h1 h2
    refine ⟨?_, ?_, ?_, ?_⟩
    · simp [RemoveTrafficShapingGenerator, h1, h2]
    · simp [RemoveTrafficShapingGenerator, h1, h2]
    · intro k hk
      simp [RemoveTrafficShapingGenerator, h1, h2, hk]
    · intro habs
      funext k
      simp only [RemoveTrafficShapingGenerator, if_neg h1, if_neg h2]
      by_cases hk : k = (⟨tcs, cb⟩ : GenKey)
      · subst hk
        rw [if_pos rfl, habs]
      · rw [if_neg hk]

/-- C6 witness: a built-in pair is protected, a custom pair is inserted,
and removing an absent custom pair is a no-op. -/
theorem generator_registry_protection_witness :
    SetTrafficShapingGenerator tcGenFuncMapInit 0 0 (some panicGen) =
      (some "not allowed to replace the generator for default control strategy", tcGenFuncMapInit) ∧
    RemoveTrafficShapingGenerator tcGenFuncMapInit 0 1 =
      (some "not allowed to replace the generator for default control strategy", tcGenFuncMapInit) ∧
    (SetTrafficShapingGenerator tcGenFuncMapInit 111 112 (some panicGen)).1 = none ∧
    (SetTrafficShapingGenerator tcGenFuncMapInit 111 112 (some panicGen)).2 ⟨111, 112⟩ = some panicGen ∧
    (RemoveTrafficShapingGenerator tcGenFuncMapInit 111 112).2 = tcGenFuncMapInit := by
  have hin := generator_registry_protection tcGenFuncMapInit 0 0
  have hin2 := generator_registry_protection tcGenFuncMapInit 0 1
  have hout := generator_registry_protection tcGenFuncMapInit 111 112
  refine ⟨(hin.2.1 panicGen (Or.inl (by decide))).1,
    (hin2.2.1 panicGen (Or.inr (by decide))).2,
    (hout.2.2.1 panicGen (by decide) (by decide)).1,
    (hout.2.2.1 panicGen (by decide) (by decide)).2.1,
    (hout.2.2.2 (by decide) (by decide)).2.2.2 ?_⟩
  rfl

/-- C5 counterexample: IsValidRule accepts a rule whose MetricType and
RelationStrategy are unknown (outside the documented enum members) but
non-negative, so the claim that an unknown MetricType or an unknown
RelationStrategy yields an error is false: the code only rejects
negative values. -/
theorem isValidRule_unknown_enum_accepted :
    IsValidRule (some unknownEnumRule) = none ∧
    0 ≤ unknownEnumRule.MetricType ∧
    unknownEnumRule.MetricType ≠ Concurrency ∧
    unknownEnumRule.MetricType ≠ QPS ∧
    0 ≤ unknownEnumRule.RelationStrategy ∧
    unknownEnumRule.RelationStrategy ≠ CurrentResource ∧
    unknownEnumRule.RelationStrategy ≠ AssociatedResource := by
  decide

/-- C5 (amended): IsValidRule returns a distinct error for each of,
checking in this order and stopping at the first violation: a nil rule;
an empty Resource; Count below zero; a negative MetricType; a negative
RelationStrategy; a negative TokenCalculateStrategy or ControlBehavior;
RelationStrategy AssociatedResource with empty RefResource; WarmUp with
WarmUpPeriodSec at most zero or WarmUpColdFactor equal to one; and it
accepts a rule with WarmUp, WarmUpPeriodSec ten, WarmUpColdFactor two
and all other fields valid. -/
theorem isValidRule_check_order :
    IsValidRule none = some "nil Rule" ∧
    (∀ r : Rule, r.Resource = "" → IsValidRule (some r) = some "empty resource name") ∧
    (∀ r : Rule, r.Resource ≠ "" → r.Count < 0 →
      IsValidRule (some r) = some "negative threshold") ∧
    (∀ r : Rule, r.Resource ≠ "" → 0 ≤ r.Count → r.MetricType < 0 →
      IsValidRule (some r) = some "invalid metric type") ∧
    (∀ r : Rule, r.Resource ≠ "" → 0 ≤ r.Count → 0 ≤ r.MetricType →
      r.RelationStrategy < 0 → IsValidRule (some r) = some "invalid relation strategy") ∧
    (∀ r : Rule, r.Resource ≠ "" → 0 ≤ r.Count → 0 ≤ r.MetricType → 0 ≤ r.RelationStrategy →
      (r.TokenCalculateStrategy < 0 ∨ r.ControlBehavior < 0) →
      IsValidRule (some r) = some "invalid control strategy") ∧
    (∀ r : Rule, r.Resource ≠ "" → 0 ≤ r.Count → 0 ≤ r.MetricType → 0 ≤ r.RelationStrategy →
      0 ≤ r.TokenCalculateStrategy → 0 ≤ r.ControlBehavior →
      r.RelationStrategy = AssociatedResource → r.RefResource = "" →
      IsValidRule (some r) = some "Bad flow rule: invalid control behavior") ∧
    (∀ r : Rule, r.Resource ≠ "" → 0 ≤ r.Count → 0 ≤ r.MetricType → 0 ≤ r.RelationStrategy →
      0 ≤ r.TokenCalculateStrategy → 0 ≤ r.ControlBehavior →
      (r.RelationStrategy = AssociatedResource → r.RefResource ≠ "") →
      r.TokenCalculateStrategy = WarmUp → r.WarmUpPeriodSec ≤ 0 →
      IsValidRule (some r) = some "invalid warmUpPeriodSec") ∧
    (∀ r : Rule, r.Resource ≠ "" → 0 ≤ r.Count → 0 ≤ r.MetricType → 0 ≤ r.RelationStrategy →
      0 ≤ r.TokenCalculateStrategy → 0 ≤ r.ControlBehavior →
      (r.RelationStrategy = AssociatedResource → r.RefResource ≠ "") →
      r.TokenCalculateStrategy = WarmUp → 0 < r.WarmUpPeriodSec → r.WarmUpColdFactor = 1 →
      IsValidRule (some r) = some "WarmUpColdFactor must be great than 1") ∧
    (["nil Rule", "empty resource name", "negative threshold", "invalid metric type",
      "invalid relation strategy", "invalid control strategy",
      "Bad flow rule: invalid control behavior", "invalid warmUpPeriodSec",
      "WarmUpColdFactor must be great than 1"] : List String).Nodup ∧
    (∀ r : Rule, r.Resource ≠ "" → 0 ≤ r.Count → 0 ≤ r.MetricType → 0 ≤ r.RelationStrategy →
      0 ≤ r.TokenCalculateStrategy → 0 ≤ r.ControlBehavior →
      (r.RelationStrategy = AssociatedResource → r.RefResource ≠ "") →
      r.TokenCalculateStrategy = WarmUp → r.WarmUpPeriodSec = 10 → r.WarmUpColdFactor = 2 →
      IsValidRule (some r) = none) := by
  refine ⟨rfl, ?_, ?_, ?_, ?_, ?_, ?_, ?_, ?_, by decide, ?_⟩
  · intro r h1
    simp [IsValidRule, h1]
  · intro r h1 h2
    simp [IsValidRule, h1, h2]
  · intro r h1 h2 h3
    simp [IsValidRule, h1, not_lt.mpr h2, h3]
  · intro r h1 h2 h3 h4
    simp [IsValidRule, h1, not_lt.mpr h2, not_lt.mpr h3, h4]
  · intro r h1 h2 h3 h4 h5
    rcases h5 with h5 | h5 <;>
      simp [IsValidRule, h1, not_lt.mpr h2, not_lt.mpr h3, not_lt.mpr h4, h5]
  · intro r h1 h2 h3 h4 h5 h6 h7 h8
    simp [IsValidRule, h1, not_lt.mpr h2, not_lt.mpr h3, not_lt.mpr h4, not_lt.mpr h5,
      not_lt.mpr h6, h7, h8] <;> decide
  · intro r h1 h2 h3 h4 h5 h6 h7 h8 h9
    have hassoc : ¬(r.RelationStrategy = AssociatedResource ∧ r.RefResource = "") :=
      fun hc => h7 hc.1 hc.2
    simp [IsValidRule, h1, not_lt.mpr h2, not_lt.mpr h3, not_lt.mpr h4, not_lt.mpr h5,
      not_lt.mpr h6, hassoc, h8, h9] <;> decide
  · intro r h1 h2 h3 h4 h5 h6 h7 h8 h9 h10
    have hassoc : ¬(r.RelationStrategy = AssociatedResource ∧ r.RefResource = "") :=
      fun hc => h7 hc.1 hc.2
    simp [IsValidRule, h1, not_lt.mpr h2, not_lt.mpr h3, not_lt.mpr h4, not_lt.mpr h5,
      not_lt.mpr h6, hassoc, h8, Nat.not_le.mpr h9, h10] <;> decide
  · intro r h1 h2 h3 h4 h5 h6 h7 h8 h9 h10
    have hassoc : ¬(r.RelationStrategy = AssociatedResource ∧ r.RefResource = "") :=
      fun hc => h7 hc.1 hc.2
    simp [IsValidRule, h1, not_lt.mpr h2, not_lt.mpr h3, not_lt.mpr h4, not_lt.mpr h5,
      not_lt.mpr h6, hassoc, h8, h9, h10] <;> decide

/-- C5 witness: the amended characterization applied to concrete rules,
including the test vectors of the repository. -/
theorem isValidRule_check_order_witness :
    IsValidRule (some { Resource := "", Count := 1, MetricType := QPS }) =
      some "empty resource name" ∧
    IsValidRule (some { Resource := "test", Count := -19/10, MetricType := QPS }) =
      some "negative threshold" ∧
    IsValidRule (some warmUpBadRule) = some "invalid warmUpPeriodSec" ∧
    IsValidRule (some warmUpGoodRule) = none := by
  refine ⟨isValidRule_check_order.2.1 _ (by decide),
    isValidRule_check_order.2.2.1 _ (by decide) (by norm_num [Rule.Count]),
    isValidRule_check_order.2.2.2.2.2.2.2.1 _ (by decide) (by decide) (by decide) (by decide)
      (by decide) (by decide) (by decide) (by decide) (by decide),
    isValidRule_check_order.2.2.2.2.2.2.2.2.2.2 _ (by decide) (by decide) (by decide) (by decide)
      (by decide) (by decide) (by decide) (by decide) (by decide) (by decide)⟩

/-! ### C2 -/

theorem mapLookup_some_mem (m : TrafficControllerMap) (res : String)
    (l : List TrafficShapingController) (h : mapLookup m res = some l) : (res, l) ∈ m := by
  unfold mapLookup at h
  cases hf : List.find? (fun p => p.1 == res) m with
  | none => rw [hf] at h; cases h
  | some q =>
    rw [hf] at h
    obtain ⟨k, l2⟩ := q
    simp only [Option.some.injEq] at h
    have hm := List.mem_of_find?_eq_some hf
    have hk : k = res := by simpa using List.find?_some hf
    subst hk
    rw [← h]
    exact hm

theorem matchCount_lt_iff (tcs mTcs : List TrafficShapingController) :
    (matchCount tcs mTcs < tcs.length) ↔
      ∃ tc ∈ tcs, ¬ ∃ mTc ∈ mTcs, ruleOptEqualsTo tc.rule mTc.rule = true := by
  unfold matchCount
  rw [List.length_filter_lt_length_iff_exists]
  simp [List.any_eq_true]

theorem matchCount_full_iff (tcs mTcs : List TrafficShapingController) :
    ¬ (matchCount tcs mTcs < tcs.length) ↔
      ∀ tc ∈ tcs, ∃ mTc ∈ mTcs, ruleOptEqualsTo tc.rule mTc.rule = true := by
  rw [matchCount_lt_iff]
  push_neg
  simp

theorem resChangedB_none (m : TrafficControllerMap) (p : String × List TrafficShapingController)
    (h : mapLookup m p.1 = none) : resChangedB m p = true := by
  unfold resChangedB
  rw [h]

theorem resChangedB_some (m : TrafficControllerMap) (p : String × List TrafficShapingController)
    (mTcs : List TrafficShapingController) (h : mapLookup m p.1 = some mTcs) :
    resChangedB m p =
      if p.2.length ≠ mTcs.length then true
      else decide (matchCount p.2 mTcs < p.2.length) := by
  unfold resChangedB
  rw [h]

theorem resChangedB_false_iff (m : TrafficControllerMap)
    (p : String × List TrafficShapingController) :
    resChangedB m p = false ↔
      ∃ mTcs, mapLookup m p.1 = some mTcs ∧ p.2.length = mTcs.length ∧
        ∀ tc ∈ p.2, ∃ mTc ∈ mTcs, ruleOptEqualsTo tc.rule mTc.rule = true := by
  cases hlk : mapLookup m p.1 with
  | none =>
    rw [resChangedB_none m p hlk]
    simp [hlk]
  | some mTcs =>
    rw [resChangedB_some m p mTcs hlk]
    by_cases hlen : p.2.length = mTcs.length
    · rw [if_neg (by simpa using hlen)]
      simp only [decide_eq_false_iff_not]
      constructor
      · intro h
        exact ⟨mTcs, rfl, hlen, (matchCount_full_iff _ _).1 h⟩
      · rintro ⟨mTcs2, he, _, hall⟩
        injection he with he
        subst he
        exact (matchCount_full_iff _ _).2 hall
    · rw [if_pos (by simpa using hlen)]
      simp only [Bool.true_eq_false, false_iff, not_exists]
      rintro mTcs2 ⟨he, hl2, _⟩
      injection he with he
      subst he
      exact hlen hl2

theorem computeChanged_false_iff (old new : TrafficControllerMap) :
    computeChanged old new = false ↔
      (old.length = new.length ∧
       ∀ p ∈ old, ∃ mTcs, mapLookup new p.1 = some mTcs ∧ p.2.length = mTcs.length ∧
         ∀ tc ∈ p.2, ∃ mTc ∈ mTcs, ruleOptEqualsTo tc.rule mTc.rule = true) := by
  unfold computeChanged
  by_cases hl : old.length = new.length
  · rw [if_neg (by simpa using hl)]
    rw [List.any_eq_false]
    constructor
    · intro h
      refine ⟨hl, fun p hp => (resChangedB_false_iff new p).1 ?_⟩
      have h2 := h p hp
      simpa using h2
    · rintro ⟨_, h⟩ p hp
      have h2 := (resChangedB_false_iff new p).2 (h p hp)
      simp [h2]
  · rw [if_pos (by simpa using hl)]
    simp [hl]

theorem vals_nodup (tcs : List TrafficShapingController)
    (hs : ∀ tc ∈ tcs, (tc.rule).isSome)
    (hp : tcs.Pairwise (fun a b => ruleOptEqualsTo a.rule b.rule = false)) :
    (tcs.map stripTc).Nodup := by
  have h2 : tcs.Pairwise (fun a b => stripTc a ≠ stripTc b) := by
    refine hp.imp_of_mem ?_
    intro a b ha hb hrel heq
    obtain ⟨r, hr⟩ := Option.isSome_iff_exists.1 (hs a ha)
    have hbr : b.rule = some r := by
      have hab : a.rule = b.rule := heq
      rw [← hab, hr]
    have habs : ruleOptEqualsTo a.rule b.rule = true := by
      rw [hr, hbr]
      exact ruleOptEqualsTo_same r
    rw [habs] at hrel
    cases hrel
  exact (List.pairwise_map).2 h2

/-- C2: under the dedup invariant (pairwise non-equivalent rules within
each per-resource list of both maps, every controller carrying a rule,
and the key uniqueness a Go map guarantees), the changed flag of the
reconciler is false exactly when the two maps hold the same resources
and, per resource, the same set of rule values, independently of list
order. -/
theorem changeDetection_iff_setEq (old new : TrafficControllerMap)
    (hko : (keys old).Nodup) (hkn : (keys new).Nodup)
    (hro : ∀ p ∈ old, ∀ tc ∈ p.2, (tc.rule).isSome)
    (hrn : ∀ p ∈ new, ∀ tc ∈ p.2, (tc.rule).isSome)
    (hdo : ∀ p ∈ old, p.2.Pairwise (fun a b => ruleOptEqualsTo a.rule b.rule = false))
    (hdn : ∀ p ∈ new, p.2.Pairwise (fun a b => ruleOptEqualsTo a.rule b.rule = false)) :
    computeChanged old new = false ↔
      ((∀ res, res ∈ keys old ↔ res ∈ keys new) ∧
       (∀ res tcsO tcsN, mapLookup old res = some tcsO → mapLookup new res = some tcsN →
         ∀ r : Rule, some r ∈ tcsO.map stripTc ↔ some r ∈ tcsN.map stripTc)) := by
  rw [computeChanged_false_iff]
  constructor
  · rintro ⟨hlen, hper⟩
    have hkeysub : keys old ⊆ keys new := by
      intro res hres
      obtain ⟨p, hp, rfl⟩ := List.mem_map.1 hres
      obtain ⟨mTcs, hlk, _, _⟩ := hper p hp
      exact (mapLookup_isSome_iff_mem new p.1).1 (by rw [hlk]; rfl)
    have hkperm : List.Perm (keys old) (keys new) :=
      (List.subperm_of_subset hko hkeysub).perm_of_length_le
        (by simpa [keys] using Nat.le_of_eq hlen.symm)
    refine ⟨fun res => hkperm.mem_iff, ?_⟩
    intro res tcsO tcsN hO hN
    have hpO : (res, tcsO) ∈ old := mapLookup_some_mem _ _ _ hO
    obtain ⟨mTcs, hlk, hlen2, hall⟩ := hper (res, tcsO) hpO
    rw [hN] at hlk
    injection hlk with hlk
    subst hlk
    have hsub : tcsO.map stripTc ⊆ tcsN.map stripTc := by
      intro x hx
      obtain ⟨tc, htc, rfl⟩ := List.mem_map.1 hx
      obtain ⟨mTc, hmTc, heq⟩ := hall tc htc
      obtain ⟨r2, hr2a, hr2b⟩ := (ruleOptEqualsTo_iff _ _).1 heq
      have hst : stripTc tc = stripTc mTc := by
        rw [stripTc, stripTc, hr2a, hr2b]
      rw [hst]
      exact List.mem_map.2 ⟨mTc, hmTc, rfl⟩
    have hndO := vals_nodup tcsO (hro _ hpO) (hdo _ hpO)
    have hperm : List.Perm (tcsO.map stripTc) (tcsN.map stripTc) :=
      (List.subperm_of_subset hndO hsub).perm_of_length_le
        (by simpa using Nat.le_of_eq hlen2.symm)
    exact fun r => hperm.mem_iff
  · rintro ⟨hres, hvals⟩
    have hkperm : List.Perm (keys old) (keys new) :=
      (List.subperm_of_subset hko fun a ha => (hres a).1 ha).antisymm
        (List.subperm_of_subset hkn fun a ha => (hres a).2 ha)
    have hlen : old.length = new.length := by simpa [keys] using hkperm.length_eq
    refine ⟨hlen, fun p hp => ?_⟩
    have hOp : mapLookup old p.1 = some p.2 := mapLookup_of_mem_nodup old p hp hko
    have hmemN : p.1 ∈ keys new := (hres p.1).1 (List.mem_map.2 ⟨p, hp, rfl⟩)
    obtain ⟨tcsN, hN⟩ := Option.isSome_iff_exists.1 ((mapLookup_isSome_iff_mem new p.1).2 hmemN)
    have hpN : (p.1, tcsN) ∈ new := mapLookup_some_mem _ _ _ hN
    have hiff := hvals p.1 p.2 tcsN hOp hN
    have hndO := vals_nodup p.2 (hro p hp) (hdo p hp)
    have hndN := vals_nodup tcsN (hrn _ hpN) (hdn _ hpN)
    have hmemiff : ∀ x, x ∈ p.2.map stripTc ↔ x ∈ tcsN.map stripTc := by
      intro x
      cases x with
      | none =>
        constructor <;> intro hx <;> exfalso
        · obtain ⟨tc, htc, he⟩ := List.mem_map.1 hx
          have hsome := hro p hp tc htc
          rw [show tc.rule = none from he] at hsome
          cases hsome
        · obtain ⟨tc, htc, he⟩ := List.mem_map.1 hx
          have hsome := hrn _ hpN tc htc
          rw [show tc.rule = none from he] at hsome
          cases hsome
      | some r => exact hiff r
    have hperm : List.Perm (p.2.map stripTc) (tcsN.map stripTc) :=
      (List.subperm_of_subset hndO fun a ha => (hmemiff a).1 ha).antisymm
        (List.subperm_of_subset hndN fun a ha => (hmemiff a).2 ha)
    have hlen2 : p.2.length = tcsN.length := by simpa using hperm.length_eq
    refine ⟨tcsN, hN, hlen2, ?_⟩
    intro tc htc
    obtain ⟨r, hr⟩ := Option.isSome_iff_exists.1 (hro p hp tc htc)
    have hrmem : some r ∈ tcsN.map stripTc :=
      (hiff r).1 (List.mem_map.2 ⟨tc, htc, by rw [stripTc, hr]⟩)
    obtain ⟨mTc, hmTc, he⟩ := List.mem_map.1 hrmem
    refine ⟨mTc, hmTc, ?_⟩
    have hmr : mTc.rule = some r := he
    rw [hr, hmr]
    exact ruleOptEqualsTo_same r


/-- C2 witness: on concrete deduplicated maps whose candidate lists the
resources in a different order, the changed flag is false, so the
theorem yields the per-resource rule-set equality. -/
theorem changeDetection_iff_setEq_witness :
    (∀ res, res ∈ keys c2old ↔ res ∈ keys c2new) ∧
    (∀ res tcsO tcsN, mapLookup c2old res = some tcsO → mapLookup c2new res = some tcsN →
      ∀ r : Rule, some r ∈ tcsO.map stripTc ↔ some r ∈ tcsN.map stripTc) :=
  (changeDetection_iff_setEq c2old c2new (by decide) (by decide) (by decide) (by decide)
    (by decide) (by decide)).1 (by decide)

/-! ### Equations and inversion of the builder loop -/

theorem buildStep_none (reg : Registry) (acc : BuildOutput) :
    buildStep reg acc none = .ok acc := rfl

theorem buildStep_invalid (reg : Registry) (acc : BuildOutput) (rule : Rule)
    (hv : (IsValidRule (some rule)).isSome) :
    buildStep reg acc (some rule) =
      .ok { acc with failedRules := acc.failedRules ++ [some rule] } := by
  simp only [buildStep]
  rw [if_pos hv]

theorem buildStep_dup (reg : Registry) (acc : BuildOutput) (rule : Rule)
    (hv : ¬ (IsValidRule (some rule)).isSome) (hd : dupB acc.m rule = true) :
    buildStep reg acc (some rule) = .ok acc := by
  simp only [buildStep]
  rw [if_neg hv, if_pos hd]

theorem buildStep_nogen (reg : Registry) (acc : BuildOutput) (rule : Rule)
    (hv : ¬ (IsValidRule (some rule)).isSome) (hd : dupB acc.m rule = false)
    (hg : reg (keyOf rule) = none) :
    buildStep reg acc (some rule) =
      .ok { acc with failedRules := acc.failedRules ++ [some rule] } := by
  simp only [buildStep]
  rw [if_neg hv, if_neg (by simp [hd])]
  simp only [hg]

theorem buildStep_panicked (reg : Registry) (acc : BuildOutput) (rule : Rule)
    (gen : TrafficControllerGenFunc) (msg : String)
    (hv : ¬ (IsValidRule (some rule)).isSome) (hd : dupB acc.m rule = false)
    (hg : reg (keyOf rule) = some gen) (hp : gen acc.ctr rule = .panicked msg) :
    buildStep reg acc (some rule) = .error msg := by
  simp only [buildStep]
  rw [if_neg hv, if_neg (by simp [hd])]
  simp only [hg, hp]

theorem buildStep_nilController (reg : Registry) (acc : BuildOutput) (rule : Rule)
    (gen : TrafficControllerGenFunc)
    (hv : ¬ (IsValidRule (some rule)).isSome) (hd : dupB acc.m rule = false)
    (hg : reg (keyOf rule) = some gen) (hp : gen acc.ctr rule = .nilController) :
    buildStep reg acc (some rule) =
      .ok { acc with failedRules := acc.failedRules ++ [some rule], ctr := acc.ctr + 1 } := by
  simp only [buildStep]
  rw [if_neg hv, if_neg (by simp [hd])]
  simp only [hg, hp]

theorem buildStep_okGen (reg : Registry) (acc : BuildOutput) (rule : Rule)
    (gen : TrafficControllerGenFunc) (tsc : TrafficShapingController)
    (hv : ¬ (IsValidRule (some rule)).isSome) (hd : dupB acc.m rule = false)
    (hg : reg (keyOf rule) = some gen) (hp : gen acc.ctr rule = .ok tsc) :
    buildStep reg acc (some rule) =
      .ok { acc with m := mapInsertAppend acc.m rule.Resource tsc, ctr := acc.ctr + 1 } := by
  simp only [buildStep]
  rw [if_neg hv, if_neg (by simp [hd])]
  simp only [hg, hp]

/-- Full inversion of a successful builder iteration into its six
execution paths. -/
theorem buildStep_ok_cases (reg : Registry) (acc : BuildOutput) (r? : Option Rule)
    (acc2 : BuildOutput) (h : buildStep reg acc r? = .ok acc2) :
    (r? = none ∧ acc2 = acc) ∨
    (∃ rule, r? = some rule ∧ (IsValidRule (some rule)).isSome ∧
      acc2 = { acc with failedRules := acc.failedRules ++ [some rule] }) ∨
    (∃ rule, r? = some rule ∧ ¬ (IsValidRule (some rule)).isSome ∧ dupB acc.m rule = true ∧
      acc2 = acc) ∨
    (∃ rule, r? = some rule ∧ ¬ (IsValidRule (some rule)).isSome ∧ dupB acc.m rule = false ∧
      reg (keyOf rule) = none ∧
      acc2 = { acc with failedRules := acc.failedRules ++ [some rule] }) ∨
    (∃ rule gen, r? = some rule ∧ ¬ (IsValidRule (some rule)).isSome ∧ dupB acc.m rule = false ∧
      reg (keyOf rule) = some gen ∧ gen acc.ctr rule = .nilController ∧
      acc2 = { acc with failedRules := acc.failedRules ++ [some rule], ctr := acc.ctr + 1 }) ∨
    (∃ rule gen tsc, r? = some rule ∧ ¬ (IsValidRule (some rule)).isSome ∧
      dupB acc.m rule = false ∧
      reg (keyOf rule) = some gen ∧ gen acc.ctr rule = .ok tsc ∧
      acc2 = { acc with m := mapInsertAppend acc.m rule.Resource tsc, ctr := acc.ctr + 1 }) := by
  cases r? with
  | none =>
    rw [buildStep_none] at h
    injection h with h
    exact Or.inl ⟨rfl, h.symm⟩
  | some rule =>
    by_cases hv : (IsValidRule (some rule)).isSome
    · rw [buildStep_invalid reg acc rule hv] at h
      injection h with h
      exact Or.inr (Or.inl ⟨rule, rfl, hv, h.symm⟩)
    · cases hd : dupB acc.m rule with
      | true =>
        rw [buildStep_dup reg acc rule hv hd] at h
        injection h with h
        exact Or.inr (Or.inr (Or.inl ⟨rule, rfl, hv, hd, h.symm⟩))
      | false =>
        cases hg : reg (keyOf rule) with
        | none =>
          rw [buildStep_nogen reg acc rule hv hd hg] at h
          injection h with h
          exact Or.inr (Or.inr (Or.inr (Or.inl ⟨rule, rfl, hv, hd, hg, h.symm⟩)))
        | some gen =>
          cases hp : gen acc.ctr rule with
          | panicked msg =>
            rw [buildStep_panicked reg acc rule gen msg hv hd hg hp] at h
            cases h
          | nilController =>
            rw [buildStep_nilController reg acc rule gen hv hd hg hp] at h
            injection h with h
            exact Or.inr (Or.inr (Or.inr (Or.inr (Or.inl ⟨rule, gen, rfl, hv, hd, hg, hp, h.symm⟩))))
          | ok tsc =>
            rw [buildStep_okGen reg acc rule gen tsc hv hd hg hp] at h
            injection h with h
            exact Or.inr (Or.inr (Or.inr (Or.inr (Or.inr ⟨rule, gen, tsc, rfl, hv, hd, hg, hp, h.symm⟩))))

theorem buildFlowMapAux_nil (reg : Registry) (acc : BuildOutput) :
    buildFlowMapAux reg [] acc = .ok acc := rfl

theorem buildFlowMapAux_cons (reg : Registry) (r? : Option Rule) (rest : List (Option Rule))
    (acc : BuildOutput) :
    buildFlowMapAux reg (r? :: rest) acc =
      match buildStep reg acc r? with
      | .error msg => .error msg
      | .ok acc2 => buildFlowMapAux reg rest acc2 := rfl

theorem buildFlowMapAux_cons_ok (reg : Registry) (r? : Option Rule) (rest : List (Option Rule))
    (acc bo : BuildOutput) (h : buildFlowMapAux reg (r? :: rest) acc = .ok bo) :
    ∃ acc2, buildStep reg acc r? = .ok acc2 ∧ buildFlowMapAux reg rest acc2 = .ok bo := by
  rw [buildFlowMapAux_cons] at h
  cases hs : buildStep reg acc r? with
  | error msg => rw [hs] at h; cases h
  | ok acc2 => rw [hs] at h; exact ⟨acc2, rfl, h⟩

/-! ### C3 -/

theorem strip_lookup_eq (m1 m2 : TrafficControllerMap) (h : stripMap m1 = stripMap m2)
    (res : String) :
    (mapLookup m1 res).map (List.map stripTc) = (mapLookup m2 res).map (List.map stripTc) := by
  induction m1 generalizing m2 with
  | nil =>
    cases m2 with
    | nil => rfl
    | cons q m2 => simp [stripMap] at h
  | cons p m1 ih =>
    cases m2 with
    | nil => simp [stripMap] at h
    | cons q m2 =>
      obtain ⟨k1, l1⟩ := p
      obtain ⟨k2, l2⟩ := q
      simp only [stripMap, List.map_cons, List.cons.injEq, Prod.mk.injEq] at h
      obtain ⟨⟨hk, hl⟩, hrest⟩ := h
      subst hk
      rw [mapLookup_cons, mapLookup_cons]
      by_cases hr : k1 = res
      · simp [hr, hl]
      · rw [if_neg hr, if_neg hr]
        exact ih m2 hrest

theorem strip_map_updateEntry (m1 m2 : TrafficControllerMap) (h : stripMap m1 = stripMap m2)
    (res : String) (t1 t2 : TrafficShapingController) (ht : t1.rule = t2.rule) :
    stripMap (m1.map (updateEntry res t1)) = stripMap (m2.map (updateEntry res t2)) := by
  induction m1 generalizing m2 with
  | nil =>
    cases m2 with
    | nil => rfl
    | cons q m2 => simp [stripMap] at h
  | cons p m1 ih =>
    cases m2 with
    | nil => simp [stripMap] at h
    | cons q m2 =>
      obtain ⟨k1, l1⟩ := p
      obtain ⟨k2, l2⟩ := q
      simp only [stripMap, List.map_cons, List.cons.injEq, Prod.mk.injEq] at h
      obtain ⟨⟨hk, hl⟩, hrest⟩ := h
      subst hk
      rw [List.map_cons, List.map_cons]
      by_cases hr : k1 = res
      · subst hr
        rw [updateEntry_hit, updateEntry_hit]
        simp only [stripMap, List.map_cons, List.cons.injEq, Prod.mk.injEq]
        refine ⟨⟨trivial, ?_⟩, ih m2 hrest⟩
        simp only [List.map_append, List.map_cons, List.map_nil, hl]
        simp [stripTc, ht]
      · rw [updateEntry_miss _ _ _ _ hr, updateEntry_miss _ _ _ _ hr]
        simp only [stripMap, List.map_cons, List.cons.injEq, Prod.mk.injEq]
        exact ⟨⟨trivial, hl⟩, ih m2 hrest⟩

theorem strip_insert (m1 m2 : TrafficControllerMap) (h : stripMap m1 = stripMap m2)
    (res : String) (t1 t2 : TrafficShapingController) (ht : t1.rule = t2.rule) :
    stripMap (mapInsertAppend m1 res t1) = stripMap (mapInsertAppend m2 res t2) := by
  have hlk := strip_lookup_eq m1 m2 h res
  unfold mapInsertAppend
  have hfind : (List.find? (fun p => p.1 == res) m1).isSome =
      (List.find? (fun p => p.1 == res) m2).isSome := by
    have e1 : (mapLookup m1 res).isSome = (List.find? (fun p => p.1 == res) m1).isSome := by
      unfold mapLookup
      cases List.find? (fun p => p.1 == res) m1 <;> rfl
    have e2 : (mapLookup m2 res).isSome = (List.find? (fun p => p.1 == res) m2).isSome := by
      unfold mapLookup
      cases List.find? (fun p => p.1 == res) m2 <;> rfl
    rw [← e1, ← e2]
    cases h1 : mapLookup m1 res <;> cases h2 : mapLookup m2 res <;>
      rw [h1, h2] at hlk <;> simp_all
  by_cases hf : (List.find? (fun p => p.1 == res) m1).isSome
  · rw [if_pos hf, if_pos (hfind ▸ hf)]
    exact strip_map_updateEntry m1 m2 h res t1 t2 ht
  · rw [if_neg hf, if_neg (hfind ▸ hf)]
    simp only [stripMap, List.map_append, List.map_cons, List.map_nil]
    have hh : List.map (fun p => (p.1, p.2.map stripTc)) m1 =
        List.map (fun p => (p.1, p.2.map stripTc)) m2 := h
    rw [hh]
    simp [stripTc, ht]

theorem dupB_none (m : TrafficControllerMap) (rule : Rule)
    (h : mapLookup m rule.Resource = none) : dupB m rule = false := by
  unfold dupB
  rw [h]

theorem dupB_some (m : TrafficControllerMap) (rule : Rule) (l : List TrafficShapingController)
    (h : mapLookup m rule.Resource = some l) :
    dupB m rule = l.any (fun tc => ruleOptEqualsTo (some rule) tc.rule) := by
  unfold dupB
  rw [h]

theorem any_map_strip (l : List TrafficShapingController) (rule : Rule) :
    (l.map stripTc).any (fun x => ruleOptEqualsTo (some rule) x)
      = l.any (fun tc => ruleOptEqualsTo (some rule) tc.rule) := by
  induction l with
  | nil => rfl
  | cons a l ih => simp only [List.map_cons, List.any_cons, ih, stripTc]

theorem dupB_strip (m1 m2 : TrafficControllerMap) (h : stripMap m1 = stripMap m2) (rule : Rule) :
    dupB m1 rule = dupB m2 rule := by
  have hlk := strip_lookup_eq m1 m2 h rule.Resource
  cases h1 : mapLookup m1 rule.Resource with
  | none =>
    cases h2 : mapLookup m2 rule.Resource with
    | none => rw [dupB_none m1 rule h1, dupB_none m2 rule h2]
    | some l2 => rw [h1, h2] at hlk; simp at hlk
  | some l1 =>
    cases h2 : mapLookup m2 rule.Resource with
    | none => rw [h1, h2] at hlk; simp at hlk
    | some l2 =>
      rw [h1, h2] at hlk
      simp only [Option.map_some'] at hlk
      injection hlk with hlk
      rw [dupB_some m1 rule l1 h1, dupB_some m2 rule l2 h2,
        ← any_map_strip l1 rule, ← any_map_strip l2 rule, hlk]

theorem buildStep_similar (reg : Registry) (hreg : WellFormedRegistry reg)
    (a b : BuildOutput) (hm : stripMap a.m = stripMap b.m) (hf : a.failedRules = b.failedRules)
    (r? : Option Rule) :
    (∃ e1 e2, buildStep reg a r? = .error e1 ∧ buildStep reg b r? = .error e2) ∨
    (∃ a2 b2, buildStep reg a r? = .ok a2 ∧ buildStep reg b r? = .ok b2 ∧
      stripMap a2.m = stripMap b2.m ∧ a2.failedRules = b2.failedRules) := by
  cases r? with
  | none => exact Or.inr ⟨a, b, rfl, rfl, hm, hf⟩
  | some rule =>
    by_cases hv : (IsValidRule (some rule)).isSome
    · right
      rw [buildStep_invalid reg a rule hv, buildStep_invalid reg b rule hv]
      exact ⟨_, _, rfl, rfl, hm, by simp [hf]⟩
    · have hdup := dupB_strip a.m b.m hm rule
      cases hd : dupB a.m rule with
      | true =>
        right
        have hd2 : dupB b.m rule = true := by rw [← hdup]; exact hd
        rw [buildStep_dup reg a rule hv hd, buildStep_dup reg b rule hv hd2]
        exact ⟨a, b, rfl, rfl, hm, hf⟩
      | false =>
        have hd2 : dupB b.m rule = false := by rw [← hdup]; exact hd
        cases hg : reg (keyOf rule) with
        | none =>
          right
          rw [buildStep_nogen reg a rule hv hd hg, buildStep_nogen reg b rule hv hd2 hg]
          exact ⟨_, _, rfl, rfl, hm, by simp [hf]⟩
        | some gen =>
          have hfaithful := (hreg _ _ hg).1
          have hout := (hreg _ _ hg).2 a.ctr b.ctr rule
          cases hga : gen a.ctr rule with
          | panicked msg =>
            cases hgb : gen b.ctr rule with
            | panicked msg2 =>
              left
              rw [buildStep_panicked reg a rule gen msg hv hd hg hga,
                buildStep_panicked reg b rule gen msg2 hv hd2 hg hgb]
              exact ⟨msg, msg2, rfl, rfl⟩
            | nilController => rw [hga, hgb] at hout; simp [sameOutcome] at hout
            | ok tsc => rw [hga, hgb] at hout; simp [sameOutcome] at hout
          | nilController =>
            cases hgb : gen b.ctr rule with
            | nilController =>
              right
              rw [buildStep_nilController reg a rule gen hv hd hg hga,
                buildStep_nilController reg b rule gen hv hd2 hg hgb]
              exact ⟨_, _, rfl, rfl, hm, by simp [hf]⟩
            | panicked msg => rw [hga, hgb] at hout; simp [sameOutcome] at hout
            | ok tsc => rw [hga, hgb] at hout; simp [sameOutcome] at hout
          | ok tsc =>
            cases hgb : gen b.ctr rule with
            | ok tsc2 =>
              right
              rw [buildStep_okGen reg a rule gen tsc hv hd hg hga,
                buildStep_okGen reg b rule gen tsc2 hv hd2 hg hgb]
              refine ⟨_, _, rfl, rfl, ?_, hf⟩
              refine strip_insert a.m b.m hm rule.Resource tsc tsc2 ?_
              rw [hfaithful a.ctr rule tsc hga, hfaithful b.ctr rule tsc2 hgb]
            | panicked msg => rw [hga, hgb] at hout; simp [sameOutcome] at hout
            | nilController => rw [hga, hgb] at hout; simp [sameOutcome] at hout

theorem buildFlowMapAux_similar (reg : Registry) (hreg : WellFormedRegistry reg) :
    ∀ (rules : List (Option Rule)) (a b : BuildOutput),
      stripMap a.m = stripMap b.m → a.failedRules = b.failedRules →
      ((∃ e1 e2, buildFlowMapAux reg rules a = .error e1 ∧
          buildFlowMapAux reg rules b = .error e2) ∨
       (∃ a2 b2, buildFlowMapAux reg rules a = .ok a2 ∧ buildFlowMapAux reg rules b = .ok b2 ∧
         stripMap a2.m = stripMap b2.m ∧ a2.failedRules = b2.failedRules))
  | [], a, b, hm, hf => Or.inr ⟨a, b, rfl, rfl, hm, hf⟩
  | (r? :: rest), a, b, hm, hf => by
    rcases buildStep_similar reg hreg a b hm hf r? with ⟨e1, e2, h1, h2⟩ | ⟨a2, b2, h1, h2, hm2, hf2⟩
    · left
      rw [buildFlowMapAux_cons, buildFlowMapAux_cons, h1, h2]
      exact ⟨e1, e2, rfl, rfl⟩
    · rw [buildFlowMapAux_cons, buildFlowMapAux_cons, h1, h2]
      exact buildFlowMapAux_similar reg hreg rest a2 b2 hm2 hf2

theorem computeChanged_strip_refl (m1 m2 : TrafficControllerMap)
    (h : stripMap m1 = stripMap m2) (hnd : (keys m1).Nodup) (hs : AllSomeMap m1) :
    computeChanged m1 m2 = false := by
  rw [computeChanged_false_iff]
  constructor
  · have hl := congrArg List.length h
    simpa [stripMap] using hl
  · intro p hp
    have hOp : mapLookup m1 p.1 = some p.2 := mapLookup_of_mem_nodup m1 p hp hnd
    have hl := strip_lookup_eq m1 m2 h p.1
    rw [hOp] at hl
    cases h2 : mapLookup m2 p.1 with
    | none => rw [h2] at hl; simp at hl
    | some l2 =>
      rw [h2] at hl
      simp only [Option.map_some'] at hl
      injection hl with hl
      refine ⟨l2, rfl, ?_, ?_⟩
      · have := congrArg List.length hl
        simpa using this
      · intro tc htc
        obtain ⟨r, hr⟩ := Option.isSome_iff_exists.1 (hs p hp tc htc)
        have hmem : some r ∈ l2.map stripTc := by
          rw [← hl]
          exact List.mem_map.2 ⟨tc, htc, by rw [stripTc, hr]⟩
        obtain ⟨mTc, hmTc, he⟩ := List.mem_map.1 hmem
        refine ⟨mTc, hmTc, ?_⟩
        rw [hr, show mTc.rule = some r from he]
        exact ruleOptEqualsTo_same r

theorem updateEntry_fst (res : String) (tsc : TrafficShapingController)
    (p : String × List TrafficShapingController) : (updateEntry res tsc p).1 = p.1 := by
  unfold updateEntry
  split <;> rfl

theorem mapLookup_isSome_find (m : TrafficControllerMap) (res : String) :
    (mapLookup m res).isSome = (m.find? (fun p => p.1 == res)).isSome := by
  unfold mapLookup
  cases m.find? (fun p => p.1 == res) <;> rfl

theorem keys_mapInsertAppend (m : TrafficControllerMap) (res : String)
    (tsc : TrafficShapingController) :
    keys (mapInsertAppend m res tsc) =
      if (mapLookup m res).isSome then keys m else keys m ++ [res] := by
  unfold mapInsertAppend
  rw [mapLookup_isSome_find]
  by_cases h : (m.find? (fun p => p.1 == res)).isSome
  · rw [if_pos h, if_pos h]
    unfold keys
    rw [List.map_map]
    exact List.map_congr_left (fun p _ => updateEntry_fst res tsc p)
  · rw [if_neg h, if_neg h]
    simp [keys]

theorem keysNodup_insert (m : TrafficControllerMap) (res : String)
    (tsc : TrafficShapingController) (hnd : (keys m).Nodup) :
    (keys (mapInsertAppend m res tsc)).Nodup := by
  rw [keys_mapInsertAppend]
  by_cases h : (mapLookup m res).isSome
  · rw [if_pos h]
    exact hnd
  · rw [if_neg h]
    have hmem : res ∉ keys m := fun hc => h ((mapLookup_isSome_iff_mem m res).2 hc)
    simp [List.nodup_append, hnd, hmem]

theorem mem_mapInsertAppend (m : TrafficControllerMap) (res : String)
    (tsc : TrafficShapingController) (q : String × List TrafficShapingController)
    (hq : q ∈ mapInsertAppend m res tsc) :
    q ∈ m ∨ (∃ l, (res, l) ∈ m ∧ q = (res, l ++ [tsc])) ∨ q = (res, [tsc]) := by
  unfold mapInsertAppend at hq
  by_cases h : (m.find? (fun p => p.1 == res)).isSome
  · rw [if_pos h] at hq
    obtain ⟨p, hp, rfl⟩ := List.mem_map.1 hq
    by_cases hk : p.1 = res
    · right
      left
      refine ⟨p.2, ?_, ?_⟩
      · rw [← hk]
        exact hp
      · unfold updateEntry
        rw [if_pos (by simpa using hk), hk]
    · left
      have : updateEntry res tsc p = p := by
        unfold updateEntry
        rw [if_neg (by simpa using hk)]
      rw [this]
      exact hp
  · rw [if_neg h] at hq
    rcases List.mem_append.1 hq with h1 | h1
    · exact Or.inl h1
    · right
      right
      simpa using h1

theorem buildInvariant_nil (reg : Registry) : BuildInvariant reg [] :=
  ⟨List.nodup_nil, fun p hp => absurd hp (List.not_mem_nil p),
   fun p hp => absurd hp (List.not_mem_nil p)⟩

theorem buildStep_invariant (reg : Registry) (hfa : RuleFaithfulRegistry reg)
    (acc acc2 : BuildOutput) (r? : Option Rule)
    (h : buildStep reg acc r? = .ok acc2) (hinv : BuildInvariant reg acc.m) :
    BuildInvariant reg acc2.m := by
  rcases buildStep_ok_cases reg acc r? acc2 h with
    ⟨_, rfl⟩ | ⟨rule, _, hv, rfl⟩ | ⟨rule, _, hv, hd, rfl⟩ | ⟨rule, _, hv, hd, hg, rfl⟩ |
    ⟨rule, gen, _, hv, hd, hg, hp, rfl⟩ | ⟨rule, gen, tsc, _, hv, hd, hg, hp, rfl⟩
  · exact hinv
  · exact hinv
  · exact hinv
  · exact hinv
  · exact hinv
  · obtain ⟨hnd, hsw, hpw⟩ := hinv
    have htscrule : tsc.rule = some rule := hfa _ _ hg acc.ctr rule tsc hp
    have hvnone : IsValidRule (some rule) = none := by
      cases hiv : IsValidRule (some rule) with
      | none => rfl
      | some e => rw [hiv] at hv; simp at hv
    have hwitness : StoredWitness reg rule.Resource tsc :=
      ⟨rule, htscrule, rfl, hvnone, gen, hg, acc.ctr, tsc, hp⟩
    refine ⟨keysNodup_insert _ _ _ hnd, ?_, ?_⟩
    · intro p hp2 tc htc
      rcases mem_mapInsertAppend _ _ _ _ hp2 with h1 | ⟨l, hl, rfl⟩ | rfl
      · exact hsw p h1 tc htc
      · rcases List.mem_append.1 htc with h2 | h2
        · exact hsw (rule.Resource, l) hl tc h2
        · have h3 : tc = tsc := by simpa using h2
          subst h3
          exact hwitness
      · have h3 : tc = tsc := by simpa using htc
        subst h3
        exact hwitness
    · intro p hp2
      rcases mem_mapInsertAppend _ _ _ _ hp2 with h1 | ⟨l, hl, rfl⟩ | rfl
      · exact hpw p h1
      · rw [List.pairwise_append]
        refine ⟨hpw (rule.Resource, l) hl, List.pairwise_singleton _ _, ?_⟩
        intro a ha b hb
        have hb2 : b = tsc := by simpa using hb
        subst hb2
        have hlk : mapLookup acc.m rule.Resource = some l :=
          mapLookup_of_mem_nodup acc.m (rule.Resource, l) hl hnd
        have hany : l.any (fun tc => ruleOptEqualsTo (some rule) tc.rule) = false := by
          rw [← dupB_some acc.m rule l hlk]
          exact hd
        have hfa2 := List.any_eq_false.1 hany a ha
        rw [Bool.not_eq_true] at hfa2
        rw [htscrule, ruleOptEqualsTo_comm]
        exact hfa2
      · exact List.pairwise_singleton _ _

theorem buildFlowMapAux_invariant (reg : Registry) (hfa : RuleFaithfulRegistry reg) :
    ∀ (rules : List (Option Rule)) (acc bo : BuildOutput),
      buildFlowMapAux reg rules acc = .ok bo →
      BuildInvariant reg acc.m → BuildInvariant reg bo.m
  | [], acc, bo, h, hinv => by
    rw [buildFlowMapAux_nil] at h
    injection h with h
    rw [← h]
    exact hinv
  | (r? :: rest), acc, bo, h, hinv => by
    obtain ⟨acc2, h1, h2⟩ := buildFlowMapAux_cons_ok reg r? rest acc bo h
    exact buildFlowMapAux_invariant reg hfa rest acc2 bo h2
      (buildStep_invariant reg hfa acc acc2 r? h1 hinv)

theorem allSome_of_invariant (reg : Registry) (m : TrafficControllerMap)
    (h : BuildInvariant reg m) : AllSomeMap m := by
  intro p hp tc htc
  obtain ⟨r, hr, _⟩ := h.2.1 p hp tc htc
  rw [hr]
  rfl

theorem rulesFrom_aux_strip :
    ∀ (m1 m2 : TrafficControllerMap), stripMap m1 = stripMap m2 →
      ∀ acc : List Rule,
        m1.foldl (fun acc p => acc ++ p.2.filterMap (fun tc => tc.rule)) acc =
        m2.foldl (fun acc p => acc ++ p.2.filterMap (fun tc => tc.rule)) acc
  | [], [], _, acc => rfl
  | [], q :: m2, h, acc => by simp [stripMap] at h
  | p :: m1, [], h, acc => by simp [stripMap] at h
  | p :: m1, q :: m2, h, acc => by
    obtain ⟨k1, l1⟩ := p
    obtain ⟨k2, l2⟩ := q
    simp only [stripMap, List.map_cons, List.cons.injEq, Prod.mk.injEq] at h
    obtain ⟨⟨hk, hl⟩, hrest⟩ := h
    have hfm : l1.filterMap (fun tc => tc.rule) = l2.filterMap (fun tc => tc.rule) := by
      have e1 : (l1.map stripTc).filterMap id = l1.filterMap (fun tc => tc.rule) := by
        rw [List.filterMap_map]
        rfl
      have e2 : (l2.map stripTc).filterMap id = l2.filterMap (fun tc => tc.rule) := by
        rw [List.filterMap_map]
        rfl
      rw [← e1, ← e2, hl]
    rw [List.foldl_cons, List.foldl_cons]
    simp only [hfm]
    exact rulesFrom_aux_strip m1 m2 hrest (acc ++ l2.filterMap (fun tc => tc.rule))

theorem rulesFrom_strip (m1 m2 : TrafficControllerMap) (h : stripMap m1 = stripMap m2) :
    rulesFrom m1 = rulesFrom m2 :=
  rulesFrom_aux_strip m1 m2 h []

/-- The seeded registry satisfies the factory contract of the spec. -/
theorem wellFormed_init : WellFormedRegistry tcGenFuncMapInit := by
  have hgen : ∀ g : TrafficControllerGenFunc,
      (∀ ctr r, g ctr r = .ok (newTrafficShapingController ctr r)) →
      RuleFaithful g ∧ CtrStable g := by
    intro g hgdef
    constructor
    · intro ctr r tsc h
      rw [hgdef ctr r] at h
      injection h with h
      rw [← h]
      rfl
    · intro c1 c2 r
      rw [hgdef c1 r, hgdef c2 r]
      trivial
  intro k gen hk
  unfold tcGenFuncMapInit at hk
  split_ifs at hk
  · injection hk with hk; subst hk; exact hgen _ (fun _ _ => rfl)
  · injection hk with hk; subst hk; exact hgen _ (fun _ _ => rfl)
  · injection hk with hk; subst hk; exact hgen _ (fun _ _ => rfl)
  · injection hk with hk; subst hk; exact hgen _ (fun _ _ => rfl)

/-- C3: loading the same rule list twice in a row (no registry change in
between, factories satisfying the spec contract of being functions of the
rule that store the originating rule) reports changed false on the second
call, and the effective rule content observable through GetRules is the
same after the first and after the second call. -/
theorem loadRules_idempotent (s : FlowState) (rs : List (Option Rule))
    (hreg : WellFormedRegistry s.tcGenFuncMap) :
    (LoadRules (LoadRules s rs).2 rs).1.changed = false ∧
    stripMap (LoadRules (LoadRules s rs).2 rs).2.tcMap = stripMap (LoadRules s rs).2.tcMap ∧
    GetRules (LoadRules (LoadRules s rs).2 rs).2 = GetRules (LoadRules s rs).2 := by
  cases hb1 : buildFlowMap s.tcGenFuncMap rs s.ctr with
  | error msg =>
    have h1 : LoadRules s rs = ({ changed := false, err := some msg, failedRules := rs }, s) := by
      simp [LoadRules, onRuleUpdate, hb1]
    have h2 : (LoadRules s rs).2 = s := by rw [h1]
    rw [h2, h1]
    exact ⟨rfl, rfl, rfl⟩
  | ok bo1 =>
    have h2 : (LoadRules s rs).2 = { s with tcMap := bo1.m, ctr := bo1.ctr } := by
      simp [LoadRules, onRuleUpdate, hb1]
    have hb1aux : buildFlowMapAux s.tcGenFuncMap rs ⟨[], [], s.ctr⟩ = .ok bo1 := hb1
    have hsim := buildFlowMapAux_similar s.tcGenFuncMap hreg rs
      ⟨[], [], s.ctr⟩ ⟨[], [], bo1.ctr⟩ rfl rfl
    rcases hsim with ⟨e1, e2, he1, he2⟩ | ⟨a2, b2, ha2, hb2aux, hm2, hf2⟩
    · rw [hb1aux] at he1
      cases he1
    · rw [hb1aux] at ha2
      injection ha2 with ha2
      subst ha2
      have hb2 : buildFlowMap s.tcGenFuncMap rs bo1.ctr = .ok b2 := hb2aux
      have hinv : BuildInvariant s.tcGenFuncMap bo1.m :=
        buildFlowMapAux_invariant s.tcGenFuncMap (fun k g hkg => (hreg k g hkg).1) rs
          ⟨[], [], s.ctr⟩ bo1 hb1aux (buildInvariant_nil _)
      have hstate2 : LoadRules (LoadRules s rs).2 rs =
          ({ changed := computeChanged bo1.m b2.m, err := none, failedRules := b2.failedRules },
           { s with tcMap := b2.m, ctr := b2.ctr }) := by
        rw [h2]
        simp [LoadRules, onRuleUpdate, hb2]
      rw [hstate2, h2]
      refine ⟨?_, ?_, ?_⟩
      · show computeChanged bo1.m b2.m = false
        exact computeChanged_strip_refl bo1.m b2.m hm2 hinv.1 (allSome_of_invariant _ _ hinv)
      · show stripMap b2.m = stripMap bo1.m
        exact hm2.symm
      · show GetRules { s with tcMap := b2.m, ctr := b2.ctr } =
          GetRules { s with tcMap := bo1.m, ctr := bo1.ctr }
        unfold GetRules getRules
        have : rulesFrom b2.m = rulesFrom bo1.m := rulesFrom_strip _ _ hm2.symm
        rw [show ({ s with tcMap := b2.m, ctr := b2.ctr } : FlowState).tcMap = b2.m from rfl,
          show ({ s with tcMap := bo1.m, ctr := bo1.ctr } : FlowState).tcMap = bo1.m from rfl,
          this]

/-- C3 witness: a concrete double load on the initial state. -/
theorem loadRules_idempotent_witness :
    (LoadRules (LoadRules initState [some rA, some rB]).2 [some rA, some rB]).1.changed = false ∧
    GetRules (LoadRules (LoadRules initState [some rA, some rB]).2 [some rA, some rB]).2 =
      GetRules (LoadRules initState [some rA, some rB]).2 := by
  have h := loadRules_idempotent initState [some rA, some rB] wellFormed_init
  exact ⟨h.1, h.2.2⟩

/-! ### C4 -/

/-- C4: after any successful LoadRules (with rule-faithful factories, as
the spec requires of collaborators), no two controllers of one resource
hold equivalent rules; and loading the duplicate list of one valid,
supported rule onto an empty effective map yields exactly one controller
for its resource, changed true and no failed rules. -/
theorem loadRules_dedup_unique (s : FlowState) (hreg : RuleFaithfulRegistry s.tcGenFuncMap) :
    (∀ rules out s2, LoadRules s rules = (out, s2) → out.err = none →
       ∀ p ∈ s2.tcMap, p.2.Pairwise (fun a b => ruleOptEqualsTo a.rule b.rule = false)) ∧
    (∀ r gen tsc, s.tcMap = [] → IsValidRule (some r) = none →
       s.tcGenFuncMap (keyOf r) = some gen → gen s.ctr r = .ok tsc →
       LoadRules s [some r, some r] =
         ({ changed := true, err := none, failedRules := [] },
          { s with tcMap := [(r.Resource, [tsc])], ctr := s.ctr + 1 })) := by
  constructor
  · intro rules out s2 hrun herr
    cases hb : buildFlowMap s.tcGenFuncMap rules s.ctr with
    | error msg =>
      simp [LoadRules, onRuleUpdate, hb] at hrun
      rw [← hrun.1] at herr
      simp at herr
    | ok bo =>
      simp [LoadRules, onRuleUpdate, hb] at hrun
      have hinv : BuildInvariant s.tcGenFuncMap bo.m :=
        buildFlowMapAux_invariant s.tcGenFuncMap hreg rules ⟨[], [], s.ctr⟩ bo hb
          (buildInvariant_nil _)
      intro p hp
      rw [← hrun.2] at hp
      exact hinv.2.2 p hp
  · intro r gen tsc hmap hvalid hg hgen
    have hv : ¬ (IsValidRule (some r)).isSome := by rw [hvalid]; simp
    have hd1 : dupB ((⟨[], [], s.ctr⟩ : BuildOutput)).m r = false := dupB_none _ _ rfl
    have hs1 : buildStep s.tcGenFuncMap ⟨[], [], s.ctr⟩ (some r) =
        .ok ⟨[(r.Resource, [tsc])], [], s.ctr + 1⟩ := by
      rw [buildStep_okGen s.tcGenFuncMap ⟨[], [], s.ctr⟩ r gen tsc hv hd1 hg hgen]
      rfl
    have htscr : tsc.rule = some r := hreg _ _ hg s.ctr r tsc hgen
    have hd2 : dupB ([(r.Resource, [tsc])] : TrafficControllerMap) r = true := by
      rw [dupB_some _ r [tsc] (by rw [mapLookup_cons]; simp)]
      have heq : ruleOptEqualsTo (some r) tsc.rule = true := by
        rw [htscr]
        exact ruleOptEqualsTo_same r
      simp [heq]
    have hs2 : buildStep s.tcGenFuncMap ⟨[(r.Resource, [tsc])], [], s.ctr + 1⟩ (some r) =
        .ok ⟨[(r.Resource, [tsc])], [], s.ctr + 1⟩ :=
      buildStep_dup _ _ _ hv hd2
    have hbuild : buildFlowMap s.tcGenFuncMap [some r, some r] s.ctr =
        .ok ⟨[(r.Resource, [tsc])], [], s.ctr + 1⟩ := by
      unfold buildFlowMap
      rw [buildFlowMapAux_cons]
      simp only [hs1]
      rw [buildFlowMapAux_cons]
      simp only [hs2]
      exact buildFlowMapAux_nil _ _
    have hchanged : computeChanged s.tcMap [(r.Resource, [tsc])] = true := by
      rw [hmap]
      unfold computeChanged
      rw [if_pos (by simp)]
    simp [LoadRules, onRuleUpdate, hbuild, hchanged]

/-- C4 witness: the duplicate load of the plain rule on the initial
state, and the invariant on the resulting state. -/
theorem loadRules_dedup_unique_witness :
    (LoadRules initState [some rA, some rA] =
      ({ changed := true, err := none, failedRules := [] },
       { initState with tcMap := [("abc", [⟨0, some rA⟩])], ctr := 1 })) ∧
    ∀ p ∈ (LoadRules initState [some rA, some rA]).2.tcMap,
      p.2.Pairwise (fun a b => ruleOptEqualsTo a.rule b.rule = false) := by
  have h := loadRules_dedup_unique initState (fun k g hk => (wellFormed_init k g hk).1)
  constructor
  · exact h.2 rA directRejectGen ⟨0, some rA⟩ rfl (by decide) (by rfl) (by rfl)
  · intro p hp
    exact h.1 [some rA, some rA] (LoadRules initState [some rA, some rA]).1
      (LoadRules initState [some rA, some rA]).2 rfl (by decide) p hp

/-! ### C9 -/

theorem buildStep_ids (reg : Registry) (hfr : FreshAllocRegistry reg)
    (acc acc2 : BuildOutput) (r? : Option Rule) (h : buildStep reg acc r? = .ok acc2) :
    acc.ctr ≤ acc2.ctr ∧
    ∀ tc, tcIn tc acc2.m → tcIn tc acc.m ∨ acc.ctr ≤ tc.id := by
  rcases buildStep_ok_cases reg acc r? acc2 h with
    ⟨_, rfl⟩ | ⟨rule, _, hv, rfl⟩ | ⟨rule, _, hv, hd, rfl⟩ | ⟨rule, _, hv, hd, hg, rfl⟩ |
    ⟨rule, gen, _, hv, hd, hg, hp, rfl⟩ | ⟨rule, gen, tsc, _, hv, hd, hg, hp, rfl⟩
  · exact ⟨Nat.le_refl _, fun tc htc => Or.inl htc⟩
  · exact ⟨Nat.le_refl _, fun tc htc => Or.inl htc⟩
  · exact ⟨Nat.le_refl _, fun tc htc => Or.inl htc⟩
  · exact ⟨Nat.le_refl _, fun tc htc => Or.inl htc⟩
  · exact ⟨Nat.le_succ _, fun tc htc => Or.inl htc⟩
  · refine ⟨Nat.le_succ _, fun tc htc => ?_⟩
    have hid : tsc.id = acc.ctr := hfr _ _ hg acc.ctr rule tsc hp
    obtain ⟨p, hp2, htcp⟩ := htc
    rcases mem_mapInsertAppend _ _ _ _ hp2 with h1 | ⟨l, hl, rfl⟩ | rfl
    · exact Or.inl ⟨p, h1, htcp⟩
    · rcases List.mem_append.1 htcp with h2 | h2
      · exact Or.inl ⟨(rule.Resource, l), hl, h2⟩
      · have h3 : tc = tsc := by simpa using h2
        subst h3
        exact Or.inr (Nat.le_of_eq hid.symm)
    · have h3 : tc = tsc := by simpa using htcp
      subst h3
      exact Or.inr (Nat.le_of_eq hid.symm)

theorem buildFlowMapAux_ids (reg : Registry) (hfr : FreshAllocRegistry reg) :
    ∀ (rules : List (Option Rule)) (acc bo : BuildOutput),
      buildFlowMapAux reg rules acc = .ok bo →
      acc.ctr ≤ bo.ctr ∧ ∀ tc, tcIn tc bo.m → tcIn tc acc.m ∨ acc.ctr ≤ tc.id
  | [], acc, bo, h => by
    rw [buildFlowMapAux_nil] at h
    injection h with h
    subst h
    exact ⟨Nat.le_refl _, fun tc htc => Or.inl htc⟩
  | (r? :: rest), acc, bo, h => by
    obtain ⟨acc2, h1, h2⟩ := buildFlowMapAux_cons_ok reg r? rest acc bo h
    have hstep := buildStep_ids reg hfr acc acc2 r? h1
    have hrest := buildFlowMapAux_ids reg hfr rest acc2 bo h2
    refine ⟨Nat.le_trans hstep.1 hrest.1, fun tc htc => ?_⟩
    rcases hrest.2 tc htc with h3 | h3
    · exact hstep.2 tc h3
    · exact Or.inr (Nat.le_trans hstep.1 h3)

/-- C9: a successful LoadRules replaces the effective map with the
freshly built candidate map unconditionally, whatever the changed flag
says, and under freshly allocating factories (as the built-ins are) every
controller of the new map is a new instance: it differs from every
controller stored before the call. -/
theorem loadRules_replaces_instances (s : FlowState) (rules : List (Option Rule))
    (out : LoadResult) (s2 : FlowState)
    (hfr : FreshAllocRegistry s.tcGenFuncMap)
    (hids : IdsBound s.tcMap s.ctr)
    (hrun : LoadRules s rules = (out, s2)) (hok : out.err = none) :
    (∃ bo, buildFlowMap s.tcGenFuncMap rules s.ctr = .ok bo ∧ s2.tcMap = bo.m ∧
      out.changed = computeChanged s.tcMap bo.m ∧ out.failedRules = bo.failedRules) ∧
    (∀ tc2, tcIn tc2 s2.tcMap →
      s.ctr ≤ tc2.id ∧ ∀ tc1, tcIn tc1 s.tcMap → tc2 ≠ tc1) := by
  cases hb : buildFlowMap s.tcGenFuncMap rules s.ctr with
  | error msg =>
    simp [LoadRules, onRuleUpdate, hb] at hrun
    rw [← hrun.1] at hok
    simp at hok
  | ok bo =>
    simp [LoadRules, onRuleUpdate, hb] at hrun
    obtain ⟨ho, hs2⟩ := hrun
    refine ⟨⟨bo, rfl, by rw [← hs2], by rw [← ho], by rw [← ho]⟩, ?_⟩
    intro tc2 htc2
    rw [← hs2] at htc2
    have hfold := buildFlowMapAux_ids s.tcGenFuncMap hfr rules ⟨[], [], s.ctr⟩ bo hb
    rcases hfold.2 tc2 htc2 with h2 | h2
    · obtain ⟨p, hp, _⟩ := h2
      exact absurd hp (List.not_mem_nil p)
    · refine ⟨h2, fun tc1 htc1 hne => ?_⟩
      obtain ⟨p, hp, htcp⟩ := htc1
      have hlt := hids p hp tc1 htcp
      rw [hne] at h2
      have h2b : s.ctr ≤ tc1.id := h2
      omega

/-- The seeded factories allocate freshly at the current counter. -/
theorem freshAlloc_init : FreshAllocRegistry tcGenFuncMapInit := by
  intro k gen hk
  unfold tcGenFuncMapInit at hk
  split_ifs at hk <;>
    (injection hk with hk; subst hk; intro ctr r tsc h; injection h with h; rw [← h]; rfl)

/-- C9 witness: reloading the same rule value on the loaded state gives
changed false yet a new controller instance. -/
theorem loadRules_replaces_instances_witness :
    ((LoadRules s10 [some rA]).1.changed = false ∧
     (LoadRules s10 [some rA]).2.tcMap = [("abc", [⟨1, some rA⟩])]) ∧
    ∀ tc2, tcIn tc2 (LoadRules s10 [some rA]).2.tcMap →
      1 ≤ tc2.id ∧ ∀ tc1, tcIn tc1 s10.tcMap → tc2 ≠ tc1 := by
  have h := loadRules_replaces_instances s10 [some rA]
    (LoadRules s10 [some rA]).1 (LoadRules s10 [some rA]).2
    freshAlloc_init (by decide) rfl (by decide)
  exact ⟨⟨by decide, by decide⟩, fun tc2 htc2 => (h.2 tc2 htc2)⟩

theorem buildFlowMapAux_failed (reg : Registry) :
    ∀ (rules : List (Option Rule)) (acc bo : BuildOutput),
      buildFlowMapAux reg rules acc = .ok bo →
      ∃ d, bo.failedRules = acc.failedRules ++ d ∧ d.Sublist rules ∧
        ∀ x ∈ d, ∃ r, x = some r ∧ RejectEvidence reg r
  | [], acc, bo, h => by
    rw [buildFlowMapAux_nil] at h
    injection h with h
    subst h
    exact ⟨[], by simp, List.nil_sublist _, by simp⟩
  | (r? :: rest), acc, bo, h => by
    obtain ⟨acc2, h1, h2⟩ := buildFlowMapAux_cons_ok reg r? rest acc bo h
    obtain ⟨d, hd1, hd2, hd3⟩ := buildFlowMapAux_failed reg rest acc2 bo h2
    rcases buildStep_ok_cases reg acc r? acc2 h1 with
      ⟨hr, rfl⟩ | ⟨rule, hr, hv, rfl⟩ | ⟨rule, hr, hv, hd, rfl⟩ | ⟨rule, hr, hv, hd, hg, rfl⟩ |
      ⟨rule, gen, hr, hv, hd, hg, hp, rfl⟩ | ⟨rule, gen, tsc, hr, hv, hd, hg, hp, rfl⟩
    · exact ⟨d, hd1, hd2.cons r?, hd3⟩
    · subst hr
      refine ⟨some rule :: d, ?_, hd2.cons₂ (some rule), ?_⟩
      · rw [hd1]
        simp
      · intro x hx
        rcases List.mem_cons.1 hx with rfl | hx2
        · exact ⟨rule, rfl, Or.inl hv⟩
        · exact hd3 x hx2
    · exact ⟨d, hd1, hd2.cons r?, hd3⟩
    · subst hr
      refine ⟨some rule :: d, ?_, hd2.cons₂ (some rule), ?_⟩
      · rw [hd1]
        simp
      · intro x hx
        rcases List.mem_cons.1 hx with rfl | hx2
        · exact ⟨rule, rfl, Or.inr (Or.inl hg)⟩
        · exact hd3 x hx2
    · subst hr
      refine ⟨some rule :: d, ?_, hd2.cons₂ (some rule), ?_⟩
      · rw [hd1]
        simp
      · intro x hx
        rcases List.mem_cons.1 hx with rfl | hx2
        · exact ⟨rule, rfl, Or.inr (Or.inr ⟨gen, acc.ctr, hg, hp⟩)⟩
        · exact hd3 x hx2
    · exact ⟨d, hd1, hd2.cons r?, hd3⟩

theorem buildFlowMapAux_complete (reg : Registry) (hreg : WellFormedRegistry reg) :
    ∀ (rules : List (Option Rule)) (acc bo : BuildOutput),
      buildFlowMapAux reg rules acc = .ok bo →
      BuildInvariant reg acc.m →
      ∀ r, some r ∈ rules → rejectsB reg r = true → some r ∈ bo.failedRules
  | [], _, _, _, _, r, hr, _ => absurd hr (List.not_mem_nil _)
  | (r? :: rest), acc, bo, h, hinv, r, hr, hrej => by
    obtain ⟨acc2, h1, h2⟩ := buildFlowMapAux_cons_ok reg r? rest acc bo h
    have hinv2 : BuildInvariant reg acc2.m :=
      buildStep_invariant reg (fun k g hk => (hreg k g hk).1) acc acc2 r? h1 hinv
    rcases List.mem_cons.1 hr with heq | hmem
    · rcases buildStep_ok_cases reg acc r? acc2 h1 with
        ⟨hrn, _⟩ | ⟨rule, hrn, hv, hacc2⟩ | ⟨rule, hrn, hv, hd, hacc2⟩ |
        ⟨rule, hrn, hv, hd, hg, hacc2⟩ | ⟨rule, gen, hrn, hv, hd, hg, hp, hacc2⟩ |
        ⟨rule, gen, tsc, hrn, hv, hd, hg, hp, hacc2⟩
      · rw [hrn] at heq
        cases heq
      · rw [hrn] at heq
        injection heq with heq
        subst heq
        obtain ⟨d, hd1, _, _⟩ := buildFlowMapAux_failed reg rest acc2 bo h2
        rw [hd1, hacc2]
        simp
      · rw [hrn] at heq
        injection heq with heq
        subst heq
        exfalso
        cases hlk : mapLookup acc.m r.Resource with
        | none => rw [dupB_none _ _ hlk] at hd; cases hd
        | some l =>
          rw [dupB_some _ _ l hlk] at hd
          obtain ⟨tc, htc, heq2⟩ := List.any_eq_true.1 hd
          obtain ⟨r2, hr2a, hr2b⟩ := (ruleOptEqualsTo_iff _ _).1 heq2
          injection hr2a with hr2a
          subst hr2a
          have hpmem : (r.Resource, l) ∈ acc.m := mapLookup_some_mem _ _ _ hlk
          obtain ⟨r3, hrr, hres, hvalid3, gen3, hg3, ctr3, tsc3, hok3⟩ :=
            hinv.2.1 _ hpmem tc htc
          rw [hr2b] at hrr
          injection hrr with hrr
          subst hrr
          have hstable := (hreg _ _ hg3).2 ctr3 0 r
          rw [hok3] at hstable
          cases hgo : gen3 0 r with
          | ok t =>
            have hfalse : rejectsB reg r = false := by
              simp only [rejectsB, genMissingOrNil, hg3, hgo, hvalid3, Option.isSome_none,
                Bool.false_or]
            rw [hfalse] at hrej
            cases hrej
          | nilController => rw [hgo] at hstable; simp [sameOutcome] at hstable
          | panicked msg => rw [hgo] at hstable; simp [sameOutcome] at hstable
      · rw [hrn] at heq
        injection heq with heq
        subst heq
        obtain ⟨d, hd1, _, _⟩ := buildFlowMapAux_failed reg rest acc2 bo h2
        rw [hd1, hacc2]
        simp
      · rw [hrn] at heq
        injection heq with heq
        subst heq
        obtain ⟨d, hd1, _, _⟩ := buildFlowMapAux_failed reg rest acc2 bo h2
        rw [hd1, hacc2]
        simp
      · rw [hrn] at heq
        injection heq with heq
        subst heq
        exfalso
        have hvnone : IsValidRule (some r) = none := by
          cases hiv : IsValidRule (some r) with
          | none => rfl
          | some e => rw [hiv] at hv; simp at hv
        have hstable := (hreg _ _ hg).2 acc.ctr 0 r
        rw [hp] at hstable
        cases hgo : gen 0 r with
        | ok t =>
          have hfalse : rejectsB reg r = false := by
            simp only [rejectsB, genMissingOrNil, hg, hgo, hvnone, Option.isSome_none,
              Bool.false_or]
          rw [hfalse] at hrej
          cases hrej
        | nilController => rw [hgo] at hstable; simp [sameOutcome] at hstable
        | panicked msg => rw [hgo] at hstable; simp [sameOutcome] at hstable
    · exact buildFlowMapAux_complete reg hreg rest acc2 bo h2 hinv2 r hmem hrej

theorem buildFlowMapAux_order (reg : Registry) (hfa : RuleFaithfulRegistry reg) :
    ∀ (rules done : List (Option Rule)) (acc bo : BuildOutput),
      buildFlowMapAux reg rules acc = .ok bo →
      (∀ p ∈ acc.m, (p.2.map stripTc).Sublist done ∧
        ∀ tc ∈ p.2, ∃ r2, tc.rule = some r2 ∧ r2.Resource = p.1) →
      ∀ p ∈ bo.m, (p.2.map stripTc).Sublist (done ++ rules) ∧
        ∀ tc ∈ p.2, ∃ r2, tc.rule = some r2 ∧ r2.Resource = p.1
  | [], done, acc, bo, h, hini => by
    rw [buildFlowMapAux_nil] at h
    injection h with h
    subst h
    intro p hp
    refine ⟨(hini p hp).1.trans (List.sublist_append_left done []), (hini p hp).2⟩
  | (r? :: rest), done, acc, bo, h, hini => by
    obtain ⟨acc2, h1, h2⟩ := buildFlowMapAux_cons_ok reg r? rest acc bo h
    have hstep : ∀ p ∈ acc2.m, (p.2.map stripTc).Sublist (done ++ [r?]) ∧
        ∀ tc ∈ p.2, ∃ r2, tc.rule = some r2 ∧ r2.Resource = p.1 := by
      rcases buildStep_ok_cases reg acc r? acc2 h1 with
        ⟨hrn, rfl⟩ | ⟨rule, hrn, hv, rfl⟩ | ⟨rule, hrn, hv, hd, rfl⟩ |
        ⟨rule, hrn, hv, hd, hg, rfl⟩ | ⟨rule, gen, hrn, hv, hd, hg, hp, rfl⟩ |
        ⟨rule, gen, tsc, hrn, hv, hd, hg, hp, rfl⟩
      · exact fun p hp => ⟨(hini p hp).1.trans (List.sublist_append_left done [r?]),
          (hini p hp).2⟩
      · exact fun p hp => ⟨(hini p hp).1.trans (List.sublist_append_left done [r?]),
          (hini p hp).2⟩
      · exact fun p hp => ⟨(hini p hp).1.trans (List.sublist_append_left done [r?]),
          (hini p hp).2⟩
      · exact fun p hp => ⟨(hini p hp).1.trans (List.sublist_append_left done [r?]),
          (hini p hp).2⟩
      · exact fun p hp => ⟨(hini p hp).1.trans (List.sublist_append_left done [r?]),
          (hini p hp).2⟩
      · subst hrn
        have htscr : tsc.rule = some rule := hfa _ _ hg acc.ctr rule tsc hp
        intro p hp2
        rcases mem_mapInsertAppend _ _ _ _ hp2 with h3 | ⟨l, hl, rfl⟩ | rfl
        · exact ⟨(hini p h3).1.trans (List.sublist_append_left done [some rule]),
            (hini p h3).2⟩
        · constructor
          · have hmap : (l ++ [tsc]).map stripTc = l.map stripTc ++ [some rule] := by
              simp [stripTc, htscr]
            rw [hmap]
            exact (hini _ hl).1.append (List.Sublist.refl [some rule])
          · intro tc htc
            rcases List.mem_append.1 htc with h4 | h4
            · exact (hini _ hl).2 tc h4
            · have h5 : tc = tsc := by simpa using h4
              subst h5
              exact ⟨rule, htscr, rfl⟩
        · constructor
          · have hmap : ([tsc] : List TrafficShapingController).map stripTc = [some rule] := by
              simp [stripTc, htscr]
            rw [hmap]
            simpa using (List.nil_sublist done).append (List.Sublist.refl [some rule])
          · intro tc htc
            have h5 : tc = tsc := by simpa using htc
            subst h5
            exact ⟨rule, htscr, rfl⟩
    have hrec := buildFlowMapAux_order reg hfa rest (done ++ [r?]) acc2 bo h2 hstep
    intro p hp
    refine ⟨?_, (hrec p hp).2⟩
    have := (hrec p hp).1
    simpa [List.append_assoc] using this

/-- C8: for every successful build, the failed rules are exactly rejected
non-nil rules in input order (a sublist of the input, each with rejection
evidence: invalid, unregistered pair, or nil controller); under the
factory contract every rejected input rule is reported; within each
resource the stored rule values form a sublist of the input (first-seen
input order after dedup) and belong to that resource; the empty input
yields the empty map and no failures. -/
theorem buildFlowMap_spec (reg : Registry) (rules : List (Option Rule)) (ctr : Nat)
    (bo : BuildOutput) (hok : buildFlowMap reg rules ctr = .ok bo) :
    (∀ x ∈ bo.failedRules, ∃ r, x = some r ∧ RejectEvidence reg r) ∧
    bo.failedRules.Sublist rules ∧
    (WellFormedRegistry reg →
      (∀ r, some r ∈ rules → rejectsB reg r = true → some r ∈ bo.failedRules) ∧
      (∀ p ∈ bo.m, (p.2.map stripTc).Sublist rules ∧
        ∀ tc ∈ p.2, ∃ r2, tc.rule = some r2 ∧ r2.Resource = p.1)) ∧
    buildFlowMap reg [] ctr = .ok ⟨[], [], ctr⟩ := by
  obtain ⟨d, hd1, hd2, hd3⟩ := buildFlowMapAux_failed reg rules ⟨[], [], ctr⟩ bo hok
  have hfe : bo.failedRules = d := by simpa using hd1
  refine ⟨?_, ?_, ?_, rfl⟩
  · rw [hfe]
    exact hd3
  · rw [hfe]
    exact hd2
  · intro hreg
    constructor
    · exact buildFlowMapAux_complete reg hreg rules ⟨[], [], ctr⟩ bo hok (buildInvariant_nil _)
    · intro p hp
      have := buildFlowMapAux_order reg (fun k g hk => (hreg k g hk).1) rules []
        ⟨[], [], ctr⟩ bo hok (by simp) p hp
      simpa using this

/-- C8 witness: a concrete build with a nil rule (skipped silently), an
invalid rule and an unsupported rule (failed, in input order) and a
duplicated valid rule (one controller). -/
theorem buildFlowMap_spec_witness :
    (∀ x ∈ ([some rInvalid, some rU] : List (Option Rule)),
      ∃ r, x = some r ∧ RejectEvidence tcGenFuncMapInit r) ∧
    ([some rInvalid, some rU] : List (Option Rule)).Sublist
      [none, some rInvalid, some rU, some rA, some rA] ∧
    (∀ r, some r ∈ ([none, some rInvalid, some rU, some rA, some rA] : List (Option Rule)) →
      rejectsB tcGenFuncMapInit r = true → some r ∈ ([some rInvalid, some rU] : List (Option Rule))) ∧
    (∀ p ∈ ([("abc", [⟨0, some rA⟩])] : TrafficControllerMap),
      (p.2.map stripTc).Sublist [none, some rInvalid, some rU, some rA, some rA]) := by
  have h := buildFlowMap_spec tcGenFuncMapInit
    [none, some rInvalid, some rU, some rA, some rA] 0
    ⟨[("abc", [⟨0, some rA⟩])], [some rInvalid, some rU], 1⟩ (by rfl)
  exact ⟨h.1, h.2.1, (h.2.2.1 wellFormed_init).1,
    fun p hp => ((h.2.2.1 wellFormed_init).2 p hp).1⟩

theorem GetRulesHeap_fold :
    ∀ (src ret : List Nat) (h : Heap) (n : Nat),
      (∀ a ∈ src, a < n) →
      ∃ h2,
        src.foldl
          (fun st a => (st.1 ++ [st.2.2], heapWrite st.2.1 st.2.2 (st.2.1 a), st.2.2 + 1))
          (ret, h, n) = (ret ++ List.range' n src.length, h2, n + src.length) ∧
        (∀ a, a < n → h2 a = h a) ∧
        (List.range' n src.length).map h2 = src.map h
  | [], ret, h, n, hb => ⟨h, by simp, fun a _ => rfl, by simp⟩
  | (a :: src), ret, h, n, hb => by
    have hb2 : ∀ x ∈ src, x < n + 1 :=
      fun x hx => Nat.lt_succ_of_lt (hb x (List.mem_cons_of_mem a hx))
    obtain ⟨h2, hfold, hpres, hvals⟩ :=
      GetRulesHeap_fold src (ret ++ [n]) (heapWrite h n (h a)) (n + 1) hb2
    refine ⟨h2, ?_, ?_, ?_⟩
    · rw [List.foldl_cons]
      have hstep : ((ret, h, n).1 ++ [(ret, h, n).2.2],
          heapWrite (ret, h, n).2.1 (ret, h, n).2.2 ((ret, h, n).2.1 a),
          (ret, h, n).2.2 + 1) = ((ret ++ [n], heapWrite h n (h a), n + 1) :
            List Nat × Heap × Nat) := rfl
      rw [hstep, hfold]
      simp only [List.length_cons, List.range'_succ]
      simp [List.append_assoc, Nat.add_comm, Nat.add_assoc, Nat.add_left_comm]
    · intro x hx
      rw [hpres x (Nat.lt_succ_of_lt hx)]
      unfold heapWrite
      rw [if_neg (Nat.ne_of_lt hx)]
    · simp only [List.length_cons]
      rw [List.range'_succ, List.map_cons, List.map_cons]
      congr 1
      · rw [hpres n (Nat.lt_succ_self n)]
        unfold heapWrite
        rw [if_pos rfl]
      · rw [hvals]
        refine List.map_congr_left ?_
        intro x hx
        unfold heapWrite
        rw [if_neg (Nat.ne_of_lt (hb x (List.mem_cons_of_mem a hx)))]

theorem addrsFrom_mem_aux :
    ∀ (m : List (String × List Nat)) (acc : List Nat) (x : Nat),
      x ∈ m.foldl (fun acc p => acc ++ p.2) acc ↔
        x ∈ acc ∨ ∃ p ∈ m, x ∈ p.2
  | [], acc, x => by simp
  | (q :: m), acc, x => by
    rw [List.foldl_cons, addrsFrom_mem_aux m (acc ++ q.2) x]
    simp only [List.mem_append, List.mem_cons]
    constructor
    · rintro ((hx | hx) | ⟨p, hp, hx⟩)
      · exact Or.inl hx
      · exact Or.inr ⟨q, Or.inl rfl, hx⟩
      · exact Or.inr ⟨p, Or.inr hp, hx⟩
    · rintro (hx | ⟨p, (rfl | hp), hx⟩)
      · exact Or.inl (Or.inl hx)
      · exact Or.inl (Or.inr hx)
      · exact Or.inr ⟨p, hp, hx⟩

theorem mem_addrsFrom (m : List (String × List Nat)) (p : String × List Nat)
    (hp : p ∈ m) (x : Nat) (hx : x ∈ p.2) : x ∈ addrsFrom m := by
  rw [addrsFrom, addrsFrom_mem_aux m [] x]
  exact Or.inr ⟨p, hp, hx⟩

/-- C7: the copies GetRules returns alias nothing in the effective map:
every returned cell is a fresh address outside the stored rule pointers,
writing any value through a returned cell leaves the rule values of the
effective map (as a whole and per resource) untouched, and a subsequent
GetRules returns the same rule values as before the write. -/
theorem getRules_copy_isolation (mAddrs : List (String × List Nat)) (h : Heap) (next : Nat)
    (hb : ∀ a ∈ addrsFrom mAddrs, a < next) :
    ∃ ret h2 next2,
      GetRulesHeap h (addrsFrom mAddrs) next = (ret, h2, next2) ∧
      ret.map h2 = (addrsFrom mAddrs).map h ∧
      (∀ a ∈ ret, a ∉ addrsFrom mAddrs ∧ next ≤ a) ∧
      (∀ a ∈ ret, ∀ v,
        (addrsFrom mAddrs).map (heapWrite h2 a v) = (addrsFrom mAddrs).map h ∧
        (∀ p ∈ mAddrs, p.2.map (heapWrite h2 a v) = p.2.map h) ∧
        (∀ ret2 h3 next3,
          GetRulesHeap (heapWrite h2 a v) (addrsFrom mAddrs) next2 = (ret2, h3, next3) →
          ret2.map h3 = (addrsFrom mAddrs).map h)) := by
  obtain ⟨h2, hfold, hpres, hvals⟩ := GetRulesHeap_fold (addrsFrom mAddrs) [] h next hb
  have hgrh : GetRulesHeap h (addrsFrom mAddrs) next =
      (List.range' next (addrsFrom mAddrs).length, h2, next + (addrsFrom mAddrs).length) := by
    unfold GetRulesHeap
    rw [hfold]
    simp
  refine ⟨List.range' next (addrsFrom mAddrs).length, h2, next + (addrsFrom mAddrs).length,
    hgrh, hvals, ?_, ?_⟩
  · intro a ha
    have hrange := List.mem_range'_1.1 ha
    exact ⟨fun hc => absurd (hb a hc) (by omega), hrange.1⟩
  · intro a ha v
    have hrange := List.mem_range'_1.1 ha
    have hsrc : (addrsFrom mAddrs).map (heapWrite h2 a v) = (addrsFrom mAddrs).map h := by
      refine List.map_congr_left ?_
      intro x hx
      unfold heapWrite
      rw [if_neg (by have := hb x hx; omega)]
      exact hpres x (hb x hx)
    refine ⟨hsrc, ?_, ?_⟩
    · intro p hp
      refine List.map_congr_left ?_
      intro x hx
      have hxm : x ∈ addrsFrom mAddrs := mem_addrsFrom mAddrs p hp x hx
      unfold heapWrite
      rw [if_neg (by have := hb x hxm; omega)]
      exact hpres x (hb x hxm)
    · intro ret2 h3 next3 hrun2
      have hb2 : ∀ x ∈ addrsFrom mAddrs, x < next + (addrsFrom mAddrs).length :=
        fun x hx => by have := hb x hx; omega
      obtain ⟨h4, hfold2, _, hvals2⟩ :=
        GetRulesHeap_fold (addrsFrom mAddrs) [] (heapWrite h2 a v)
          (next + (addrsFrom mAddrs).length) hb2
      have hgrh2 : GetRulesHeap (heapWrite h2 a v) (addrsFrom mAddrs)
          (next + (addrsFrom mAddrs).length) =
          (List.range' (next + (addrsFrom mAddrs).length) (addrsFrom mAddrs).length, h4,
           next + (addrsFrom mAddrs).length + (addrsFrom mAddrs).length) := by
        unfold GetRulesHeap
        rw [hfold2]
        simp
      rw [hgrh2] at hrun2
      injection hrun2 with hr1 hr2
      injection hr2 with hr2 hr3
      subst hr1
      subst hr2
      rw [hvals2, hsrc]

/-- C7 witness: the isolation property on a concrete heap and map. -/
theorem getRules_copy_isolation_witness :
    ∃ ret h2 next2,
      GetRulesHeap heap0 (addrsFrom m0) 3 = (ret, h2, next2) ∧
      ret.map h2 = (addrsFrom m0).map heap0 ∧
      (∀ a ∈ ret, a ∉ addrsFrom m0 ∧ 3 ≤ a) ∧
      (∀ a ∈ ret, ∀ v,
        (addrsFrom m0).map (heapWrite h2 a v) = (addrsFrom m0).map heap0 ∧
        (∀ p ∈ m0, p.2.map (heapWrite h2 a v) = p.2.map heap0) ∧
        (∀ ret2 h3 next3,
          GetRulesHeap (heapWrite h2 a v) (addrsFrom m0) next2 = (ret2, h3, next3) →
          ret2.map h3 = (addrsFrom m0).map heap0)) :=
  getRules_copy_isolation m0 heap0 3 (by decide)
